import Mathlib

/-!
Shallow embedding of the identity-reconciliation engine of this repository.

The SQL-backed engine is `backend/server.js` (`app.post('/identify')` together
with `findRelatedContacts` and `findContactFamily`).  Contacts live in a single
`contacts` relation; machine ids are modelled as `Nat` (Postgres `SERIAL`),
timestamps as `Nat`, nullable columns as `Option`.

In `server.js` every read (`findRelatedContacts` at line 150 and
`findContactFamily` at line 191) runs on the shared `pool`, outside the
`client` transaction, and every read happens before all committed writes of the
same request; so one request is modelled as: compute all decisions from a
snapshot of the store, then apply the writes.  `identifyOn snap store` makes
the snapshot explicit (used to model racing requests); the sequential call is
`identify db = identifyOn db db`.

The document-store-backed variant (`FirebaseIdentityReconciliation.handleSubmit`
with `FirebaseContactService`) is embedded separately as `fbReconcile`.
-/

namespace IdentityRecon

inductive Precedence where
  | primary
  | secondary
deriving DecidableEq, Repr, Inhabited

/-- One row of the `contacts` relation (`CREATE TABLE contacts` in server.js). -/
structure Contact where
  id : Nat
  email : Option String
  phoneNumber : Option String
  linkedId : Option Nat
  linkPrecedence : Precedence
  createdAt : Nat
  updatedAt : Nat
  deletedAt : Option Nat
deriving DecidableEq, Repr, Inhabited

/-- The store: the `contacts` relation plus the `SERIAL` id counter. -/
structure DB where
  contacts : List Contact
  nextId : Nat
deriving DecidableEq, Repr, Inhabited

/-- The JSON body answered by `/identify`. -/
structure Response where
  primaryContactId : Nat
  emails : List String
  phoneNumbers : List String
  secondaryContactIds : List Nat
deriving DecidableEq, Repr, Inhabited

/-- Store state after the request together with the response. -/
structure IdentifyResult where
  db : DB
  response : Response
deriving DecidableEq, Repr, Inhabited

def Contact.isPrimary (c : Contact) : Bool :=
  match c.linkPrecedence with
  | .primary => true
  | .secondary => false

def Contact.isSecondary (c : Contact) : Bool :=
  match c.linkPrecedence with
  | .primary => false
  | .secondary => true

/-- JavaScript truthiness of an optional request string (`!email`):
`null`/`undefined` and `''` are falsy. -/
def jsTruthy : Option String → Bool
  | none => false
  | some s => !(s == "")

/-- SQL `=` with NULL semantics: `NULL = x` is never true. -/
def sqlEq : Option String → Option String → Bool
  | some a, some b => a == b
  | _, _ => false

/-- Row predicate of `findRelatedContacts`:
`WHERE (email = $1 OR phone_number = $2) AND deleted_at IS NULL`. -/
def matchesRequest (email phoneNumber : Option String) (c : Contact) : Bool :=
  (sqlEq c.email email || sqlEq c.phoneNumber phoneNumber) && c.deletedAt.isNone

/-- Insert `x` into `l` before the first element `y` with `¬ lt y x`
(stable insertion step for the `ORDER BY` clauses). -/
def insertSorted {α : Type} (lt : α → α → Bool) (x : α) : List α → List α
  | [] => [x]
  | y :: ys => if lt y x then y :: insertSorted lt x ys else x :: y :: ys

/-- Stable insertion sort modelling SQL `ORDER BY`. -/
def sortRows {α : Type} (lt : α → α → Bool) : List α → List α
  | [] => []
  | x :: xs => insertSorted lt x (sortRows lt xs)

/-- `ORDER BY created_at ASC`. -/
def createdLT (a b : Contact) : Bool := a.createdAt < b.createdAt

/-- `findRelatedContacts` (server.js lines 86-96). -/
def findRelatedContacts (db : DB) (email phoneNumber : Option String) : List Contact :=
  sortRows createdLT (db.contacts.filter (matchesRequest email phoneNumber))

/-- Join condition of the recursive CTE in `findContactFamily`: a non-deleted
row `c` joins the family if its `linked_id` is a member id (second branch) or
some member row's `linked_id` is `c.id` (third branch). -/
def linkedCond (rows : List Contact) (ids : List Nat) (c : Contact) : Bool :=
  (match c.linkedId with
   | some t => ids.contains t
   | none => false)
  || rows.any (fun m => ids.contains m.id && m.linkedId == some c.id)

/-- Ids newly produced by one saturation round of the recursive CTE. -/
def familyNew (rows : List Contact) (ids : List Nat) : List Nat :=
  (rows.filter
    (fun c => c.deletedAt.isNone && !(ids.contains c.id) && linkedCond rows ids c)).map (·.id)

/-- One saturation round of the recursive CTE. -/
def familyStep (rows : List Contact) (ids : List Nat) : List Nat :=
  ids ++ familyNew rows ids

def familyIter (rows : List Contact) : Nat → List Nat → List Nat
  | 0, ids => ids
  | n + 1, ids => familyIter rows n (familyStep rows ids)

/-- Base case of the CTE: `WHERE id = $1 AND deleted_at IS NULL`. -/
def familyBase (rows : List Contact) (root : Nat) : List Nat :=
  (rows.filter (fun c => c.id == root && c.deletedAt.isNone)).map (·.id)

/-- Ids of the recursive CTE `contact_family` (saturated fixpoint). -/
def familyIds (db : DB) (root : Nat) : List Nat :=
  familyIter db.contacts db.contacts.length (familyBase db.contacts root)

/-- 'secondary' > 'primary' as strings, and the query orders
`link_precedence DESC`, so secondaries sort before the primary. -/
def precRank : Precedence → Nat
  | .secondary => 0
  | .primary => 1

/-- `ORDER BY link_precedence DESC, created_at ASC`. -/
def famLT (a b : Contact) : Bool :=
  precRank a.linkPrecedence < precRank b.linkPrecedence
  || (precRank a.linkPrecedence == precRank b.linkPrecedence && a.createdAt < b.createdAt)

/-- `findContactFamily` (server.js lines 98-129). -/
def findContactFamily (db : DB) (contactId : Nat) : List Contact :=
  sortRows famLT
    (db.contacts.filter (fun c => (familyIds db contactId).contains c.id && c.deletedAt.isNone))

/-- `.map(c => c.email).filter(Boolean)`: drop nulls and empty strings. -/
def jsCompact (l : List (Option String)) : List String :=
  (l.filterMap id).filter (fun s => !(s == ""))

/-- Auxiliary loop of `jsSetDedup`: keep an element unless already seen. -/
def jsSetDedupGo (seen : List String) : List String → List String
  | [] => []
  | x :: xs => if seen.contains x then jsSetDedupGo seen xs else x :: jsSetDedupGo (x :: seen) xs

/-- `[...new Set(l)]`: deduplicate keeping first occurrences. -/
def jsSetDedup (l : List String) : List String :=
  jsSetDedupGo [] l

/-- `email && !existingEmails.includes(email)`: the request fragment is truthy
and not yet present in the family. -/
def fragNew (x : Option String) (present : List String) : Bool :=
  match x with
  | none => false
  | some s => !(s == "") && !(present.contains s)

/-- `email ? [email] : []` in the fresh-contact response. -/
def respList (x : Option String) : List String :=
  match x with
  | none => []
  | some s => if s == "" then [] else [s]

/-- Row inserted by the no-match branch (lines 152-171). -/
def freshContact (newId now : Nat) (email phoneNumber : Option String) : Contact :=
  { id := newId, email := email, phoneNumber := phoneNumber, linkedId := none,
    linkPrecedence := .primary, createdAt := now, updatedAt := now, deletedAt := none }

/-- The matched rows (line 150). -/
def theExisting (snap : DB) (email phoneNumber : Option String) : List Contact :=
  findRelatedContacts snap email phoneNumber

/-- `existingContacts.find(c => c.link_precedence === 'primary')` (line 174). -/
def foundPrimary (snap : DB) (email phoneNumber : Option String) : Option Contact :=
  (theExisting snap email phoneNumber).find? Contact.isPrimary

/-- The acting primary: the found primary, else `existingContacts[0]`
(lines 174-188); only its `id` and `createdAt` are read afterwards. -/
def actingPrimary (snap : DB) (email phoneNumber : Option String) : Contact :=
  (foundPrimary snap email phoneNumber).getD ((theExisting snap email phoneNumber).headD default)

/-- `familyContacts` before any insertion (line 191); reads the snapshot. -/
def theFamily (snap : DB) (email phoneNumber : Option String) : List Contact :=
  findContactFamily snap (actingPrimary snap email phoneNumber).id

def familyEmails (snap : DB) (email phoneNumber : Option String) : List String :=
  jsCompact ((theFamily snap email phoneNumber).map (·.email))

def familyPhones (snap : DB) (email phoneNumber : Option String) : List String :=
  jsCompact ((theFamily snap email phoneNumber).map (·.phoneNumber))

/-- `needNewContact` (lines 197-198). -/
def needNewContact (snap : DB) (email phoneNumber : Option String) : Bool :=
  fragNew email (familyEmails snap email phoneNumber)
  || fragNew phoneNumber (familyPhones snap email phoneNumber)

/-- The secondary row inserted at lines 200-215: it carries only the fragments
absent from the family, and links to the acting primary. -/
def newSecondary (snap : DB) (newId now : Nat) (email phoneNumber : Option String) : Contact :=
  { id := newId,
    email := if fragNew email (familyEmails snap email phoneNumber) then email else none,
    phoneNumber :=
      if fragNew phoneNumber (familyPhones snap email phoneNumber) then phoneNumber else none,
    linkedId := some (actingPrimary snap email phoneNumber).id,
    linkPrecedence := .secondary, createdAt := now, updatedAt := now, deletedAt := none }

/-- The in-memory `existingContacts` array after the possible mutation at line
186 (`primaryContact.link_precedence = 'primary'` mutates `existingContacts[0]`). -/
def memContacts (snap : DB) (email phoneNumber : Option String) : List Contact :=
  match foundPrimary snap email phoneNumber, theExisting snap email phoneNumber with
  | none, c0 :: rest => { c0 with linkPrecedence := .primary } :: rest
  | _, l => l

/-- `multiplePrimaries` (line 218), computed on the in-memory array. -/
def multiplePrimaries (snap : DB) (email phoneNumber : Option String) : List Contact :=
  (memContacts snap email phoneNumber).filter Contact.isPrimary

/-- `multiplePrimaries.reduce(...)` picking the strictly earliest `created_at`
(lines 221-223). -/
def jsReduceOldest : List Contact → Option Contact
  | [] => none
  | c :: rest =>
    some (rest.foldl
      (fun oldest current => if current.createdAt < oldest.createdAt then current else oldest) c)

def oldestPrimary (snap : DB) (email phoneNumber : Option String) : Contact :=
  (jsReduceOldest (multiplePrimaries snap email phoneNumber)).getD
    (actingPrimary snap email phoneNumber)

/-- Ids demoted by the consolidation loop (lines 225-232). -/
def demotedIds (snap : DB) (email phoneNumber : Option String) : List Nat :=
  ((multiplePrimaries snap email phoneNumber).filter
    (fun c => !(c.id == (oldestPrimary snap email phoneNumber).id))).map (·.id)

/-- `primaryContact.id` at response time (line 247): reassigned to the oldest
primary only when the consolidation branch ran. -/
def finalPrimaryId (snap : DB) (email phoneNumber : Option String) : Nat :=
  if (multiplePrimaries snap email phoneNumber).length > 1 then
    (oldestPrimary snap email phoneNumber).id
  else
    (actingPrimary snap email phoneNumber).id

/-- Row effect of the promotion `UPDATE` (lines 182-185): set
`link_precedence = 'primary'` on the acting primary's id. -/
def promoteFun (snap : DB) (email phoneNumber : Option String) (now : Nat)
    (c : Contact) : Contact :=
  if c.id == (actingPrimary snap email phoneNumber).id then
    { c with linkPrecedence := .primary, updatedAt := now }
  else c

/-- The `UPDATE` of the zero-primaries branch (lines 180-187). -/
def applyPromoteWrite (snap : DB) (email phoneNumber : Option String) (now : Nat)
    (contacts : List Contact) : List Contact :=
  if (foundPrimary snap email phoneNumber).isNone then
    contacts.map (promoteFun snap email phoneNumber now)
  else contacts

/-- Row effect of the demotion `UPDATE` (lines 227-230): demote and re-point
the non-oldest matched primaries. -/
def demoteFun (snap : DB) (email phoneNumber : Option String) (now : Nat)
    (c : Contact) : Contact :=
  if (demotedIds snap email phoneNumber).contains c.id then
    { c with linkPrecedence := .secondary,
             linkedId := some (oldestPrimary snap email phoneNumber).id, updatedAt := now }
  else c

/-- The demotion `UPDATE` loop (lines 225-232). -/
def applyDemoteWrites (snap : DB) (email phoneNumber : Option String) (now : Nat)
    (contacts : List Contact) : List Contact :=
  if (multiplePrimaries snap email phoneNumber).length > 1 then
    contacts.map (demoteFun snap email phoneNumber now)
  else contacts

/-- Response assembly (lines 239-251): `familyContacts` plus the pushed new
secondary; `[...new Set(...filter(Boolean))]` for the fragment lists. -/
def assembleResponse (snap : DB) (secId now : Nat) (email phoneNumber : Option String) :
    Response :=
  let fam2 := theFamily snap email phoneNumber
    ++ (if needNewContact snap email phoneNumber
        then [newSecondary snap secId now email phoneNumber] else [])
  { primaryContactId := finalPrimaryId snap email phoneNumber,
    emails := jsSetDedup (jsCompact (fam2.map (·.email))),
    phoneNumbers := jsSetDedup (jsCompact (fam2.map (·.phoneNumber))),
    secondaryContactIds := (fam2.filter Contact.isSecondary).map (·.id) }

/-- `app.post('/identify')`: decisions are taken on the snapshot `snap` (all
reads run outside the transaction and before the writes), writes are applied
to `store`.  `none` models the 400 validation rejection. -/
def identifyOn (snap store : DB) (now : Nat) (email phoneNumber : Option String) :
    Option IdentifyResult :=
  if !(jsTruthy email) && !(jsTruthy phoneNumber) then
    none
  else if (theExisting snap email phoneNumber).isEmpty then
    let c := freshContact store.nextId now email phoneNumber
    some { db := { contacts := store.contacts ++ [c], nextId := store.nextId + 1 },
           response := { primaryContactId := c.id, emails := respList email,
                         phoneNumbers := respList phoneNumber, secondaryContactIds := [] } }
  else
    let afterPromote := applyPromoteWrite snap email phoneNumber now store.contacts
    let afterInsert :=
      if needNewContact snap email phoneNumber then
        afterPromote ++ [newSecondary snap store.nextId now email phoneNumber]
      else afterPromote
    let contacts2 := applyDemoteWrites snap email phoneNumber now afterInsert
    some { db := { contacts := contacts2,
                   nextId := if needNewContact snap email phoneNumber then
                       store.nextId + 1
                     else store.nextId },
           response := assembleResponse snap store.nextId now email phoneNumber }

/-- One sequential `/identify` request. -/
def identify (db : DB) (now : Nat) (email phoneNumber : Option String) :
    Option IdentifyResult :=
  identifyOn db db now email phoneNumber

/-- The store after handling one request (the validation branch returns before
any store access, leaving the store untouched). -/
def identifyState (db : DB) (now : Nat) (email phoneNumber : Option String) : DB :=
  match identify db now email phoneNumber with
  | some r => r.db
  | none => db

/-- Well-formed store: distinct ids, ids below the `SERIAL` counter, primaries
carry no `linked_id` (schema intent), and `linked_id` satisfies the
`REFERENCES contacts(id)` foreign key. -/
def WF (db : DB) : Prop :=
  (db.contacts.map (·.id)).Nodup
  ∧ (∀ c ∈ db.contacts, c.id < db.nextId)
  ∧ (∀ c ∈ db.contacts, c.linkPrecedence = .primary → c.linkedId = none)
  ∧ (∀ c ∈ db.contacts, ∀ t, c.linkedId = some t → ∃ d ∈ db.contacts, d.id = t)

/-- A secondary row whose `linked_id` points at another secondary row
(violation of spec invariant 3, "no multi-hop links"). -/
def hasSecondaryToSecondaryLink (db : DB) : Bool :=
  db.contacts.any (fun c =>
    c.isSecondary && c.deletedAt.isNone
    && db.contacts.any (fun d => d.isSecondary && d.deletedAt.isNone && c.linkedId == some d.id))

/-!
Document-store-backed implementation: `FirebaseIdentityReconciliation.handleSubmit`
over `FirebaseContactService` (`contactService.ts`, fields per `models.ts`'s
`FirebaseContact`).  Firestore document ids are modelled as `Nat`, `Timestamp`
as `Nat`; documents of one collection are kept in insertion order.
-/

/-- A document of the `contacts` collection (`models.ts` `FirebaseContact`). -/
structure FirebaseContact where
  id : Nat
  email : Option String
  phoneNumber : Option String
  linkedId : Option Nat
  linkPrecedence : Precedence
  userId : String
  createdAt : Nat
  updatedAt : Nat
deriving DecidableEq, Repr, Inhabited

structure FirebaseDB where
  contacts : List FirebaseContact
  nextId : Nat
deriving DecidableEq, Repr, Inhabited

def FirebaseContact.isPrimary (c : FirebaseContact) : Bool :=
  match c.linkPrecedence with
  | .primary => true
  | .secondary => false

def FirebaseContact.isSecondary (c : FirebaseContact) : Bool :=
  match c.linkPrecedence with
  | .primary => false
  | .secondary => true

/-- `FirebaseContactService.findRelatedContacts`: an equality query per
supplied fragment (the `if (email)` / `if (phoneNumber)` guards), results
concatenated with duplicates (by id) dropped on arrival. -/
def fbFindRelatedContacts (db : FirebaseDB) (email phoneNumber : Option String)
    (userId : String) : List FirebaseContact :=
  let emailQ := match email with
    | some s => db.contacts.filter (fun c => c.email == some s && c.userId == userId)
    | none => []
  let phoneQ := match phoneNumber with
    | some s => db.contacts.filter (fun c => c.phoneNumber == some s && c.userId == userId)
    | none => []
  fbDedupById [] (emailQ ++ phoneQ)
where
  fbDedupById (seen : List Nat) : List FirebaseContact → List FirebaseContact
    | [] => []
    | x :: xs =>
      if seen.contains x.id then fbDedupById seen xs
      else x :: fbDedupById (x.id :: seen) xs

/-- `orderBy('createdAt', 'asc')`. -/
def fbCreatedLT (a b : FirebaseContact) : Bool := a.createdAt < b.createdAt

/-- `FirebaseContactService.getContactsByUser`. -/
def fbGetContactsByUser (db : FirebaseDB) (userId : String) : List FirebaseContact :=
  sortRows fbCreatedLT (db.contacts.filter (fun c => c.userId == userId))

/-- `FirebaseIdentityReconciliation.handleSubmit`: update the first related
contact in place (`formData.email || existingContact.email`), or create a
fresh primary; then rebuild the response from every contact of the user. -/
def fbReconcile (db : FirebaseDB) (now : Nat) (email phoneNumber : Option String)
    (userId : String) : Option (FirebaseDB × Response) :=
  if !(jsTruthy email) && !(jsTruthy phoneNumber) then
    none
  else
    let e := if jsTruthy email then email else none
    let p := if jsTruthy phoneNumber then phoneNumber else none
    let existing := fbFindRelatedContacts db e p userId
    let db1 : FirebaseDB :=
      match existing with
      | c :: _ =>
        { db with contacts := db.contacts.map (fun d =>
            if d.id == c.id then
              { d with email := if jsTruthy email then email else c.email,
                       phoneNumber := if jsTruthy phoneNumber then phoneNumber else c.phoneNumber,
                       updatedAt := now }
            else d) }
      | [] =>
        { contacts := db.contacts ++
            [{ id := db.nextId, email := e, phoneNumber := p, linkedId := none,
               linkPrecedence := .primary, userId := userId, createdAt := now,
               updatedAt := now }],
          nextId := db.nextId + 1 }
    let allContacts := fbGetContactsByUser db1 userId
    let primaryContact :=
      (allContacts.find? FirebaseContact.isPrimary).getD (allContacts.headD default)
    some (db1,
      { primaryContactId := primaryContact.id,
        emails := jsSetDedup (jsCompact (allContacts.map (·.email))),
        phoneNumbers := jsSetDedup (jsCompact (allContacts.map (·.phoneNumber))),
        secondaryContactIds := (allContacts.filter FirebaseContact.isSecondary).map (·.id) })

/-- Number of non-deleted primary rows matching the request fragments. -/
def primariesMatching (db : DB) (email phoneNumber : Option String) : Nat :=
  (db.contacts.filter (fun c => matchesRequest email phoneNumber c && c.isPrimary)).length

/-!  Concrete stores used by the counterexample theorems. -/

/-- Two independent primaries: P1 owns email `a@x` (created first), P2 owns
phone `111`. -/
def mergeDB : DB :=
  ⟨[⟨1, some "a@x", none, none, .primary, 1, 1, none⟩,
    ⟨2, none, some "111", none, .primary, 2, 2, none⟩], 3⟩

/-- Same as `mergeDB` plus a secondary S3 linked to the later primary P2. -/
def mergeDBwithSecondary : DB :=
  ⟨[⟨1, some "a@x", none, none, .primary, 1, 1, none⟩,
    ⟨2, none, some "111", none, .primary, 2, 2, none⟩,
    ⟨3, some "c@x", none, some 2, .secondary, 3, 3, none⟩], 4⟩

/-- One primary (email `a@x`, phone `111`) with a secondary carrying the extra
phone `222`; a request for phone `222` alone matches only the secondary. -/
def promoteDB : DB :=
  ⟨[⟨1, some "a@x", some "111", none, .primary, 1, 1, none⟩,
    ⟨2, none, some "222", some 1, .secondary, 2, 2, none⟩], 3⟩

/-- A family whose primary (id 1) owns email `a@x` and whose secondary (id 2)
owns email `b@x`. -/
def orderDB : DB :=
  ⟨[⟨1, some "a@x", none, none, .primary, 1, 1, none⟩,
    ⟨2, some "b@x", none, some 1, .secondary, 2, 2, none⟩], 3⟩

/-- SQL store holding one contact: email `a@x`, phone `111`. -/
def oneContactDB : DB :=
  ⟨[⟨1, some "a@x", some "111", none, .primary, 1, 1, none⟩], 2⟩

/-- Firebase store holding the same single contact (owner `u1`). -/
def oneContactFbDB : FirebaseDB :=
  ⟨[⟨1, some "a@x", some "111", none, .primary, "u1", 1, 1⟩], 2⟩

/-- Ascending `created_at` order, as a proposition. -/
def CreatedLE (a b : Contact) : Prop := a.createdAt ≤ b.createdAt

/-- Fields never touched by any `UPDATE` of the engine (`email`,
`phone_number`, `id`, `created_at`, `deleted_at`). -/
def SameShell (a b : Contact) : Prop :=
  b.email = a.email ∧ b.phoneNumber = a.phoneNumber ∧ b.id = a.id
  ∧ b.createdAt = a.createdAt ∧ b.deletedAt = a.deletedAt

/-- `new` extends `old` positionally: every pre-existing row keeps its
untouched columns, new rows only appear at the end. -/
def FrameExtends (old new : List Contact) : Prop :=
  old.length ≤ new.length
  ∧ ∀ i (h1 : i < old.length) (h2 : i < new.length),
      SameShell (old.get ⟨i, h1⟩) (new.get ⟨i, h2⟩)

/-- Declarative membership in the recursive CTE `contact_family`: the root (if
its non-deleted row exists), children through `linked_id`, and parents
through a member's `linked_id`. -/
inductive FamReach (rows : List Contact) (root : Nat) : Nat → Prop where
  | base (c : Contact) : c ∈ rows → c.id = root → c.deletedAt = none →
      FamReach rows root root
  | toChild (x : Nat) (c : Contact) : FamReach rows root x → c ∈ rows →
      c.deletedAt = none → c.linkedId = some x → FamReach rows root c.id
  | toParent (m c : Contact) : FamReach rows root m.id → m ∈ rows →
      m.linkedId = some c.id → c ∈ rows → c.deletedAt = none → FamReach rows root c.id

/-- A CTE id set closed under one more saturation round. -/
def Saturated (rows : List Contact) (ids : List Nat) : Prop :=
  ∀ x ∈ familyStep rows ids, x ∈ ids

/-- Number of row-id occurrences not yet collected: the termination measure of
the CTE saturation. -/
def familyMeasure (rows : List Contact) (ids : List Nat) : Nat :=
  ((rows.map (·.id)).filter (fun i => !(ids.contains i))).length

/-- C1 counterexample.  On the bridging request `(email=a@x, phone=111)` over
`mergeDB`, the engine demotes P2 (id 2) to a secondary of the merged family,
yet the response's `secondaryContactIds` is `[3]` (only the newly inserted
secondary): it does not cover all secondaries of the merged family, so the
claim's response condition is false at this input. -/
theorem c1_counterexample :
    (identify mergeDB 9 (some "a@x") (some "111")).isSome = true
    ∧ ((identify mergeDB 9 (some "a@x") (some "111")).getD default).db.contacts.any
        (fun c => c.id == 2 && c.isSecondary && c.linkedId == some 1) = true
    ∧ ((identify mergeDB 9 (some "a@x") (some "111")).getD default).response.secondaryContactIds
        = [3] := by
  decide

/-- C2 (code bug).  Before the bridging request, `mergeDBwithSecondary` has no
secondary-to-secondary link; the request `(a@x, 111)` demotes primary P2 (id 2)
but never re-points its secondary S3 (id 3), whose `linkedId` still refers to
the now-secondary contact 2 — the demotion loop (server.js lines 225-232)
updates only the demoted primaries themselves. -/
theorem c2_multihop_after_merge :
    hasSecondaryToSecondaryLink mergeDBwithSecondary = false
    ∧ (identify mergeDBwithSecondary 10 (some "a@x") (some "111")).isSome = true
    ∧ hasSecondaryToSecondaryLink
        ((identify mergeDBwithSecondary 10 (some "a@x") (some "111")).getD default).db = true
    ∧ ((identify mergeDBwithSecondary 10 (some "a@x") (some "111")).getD default).db.contacts.any
        (fun c => c.id == 3 && c.isSecondary && c.linkedId == some 2) = true := by
  decide

/-- C3 counterexample.  Contact 2 of `promoteDB` is secondary before the call;
the request `(null, phone=222)` matches only that secondary, and the
zero-primaries branch (server.js lines 176-188) updates its
`link_precedence` to `'primary'`: a secondary is promoted, refuting the claim. -/
theorem c3_counterexample :
    promoteDB.contacts.any (fun c => c.id == 2 && c.isSecondary) = true
    ∧ (identify promoteDB 9 none (some "222")).isSome = true
    ∧ ((identify promoteDB 9 none (some "222")).getD default).db.contacts.any
        (fun c => c.id == 2 && c.isPrimary) = true := by
  decide

/-- C7 counterexample.  Requesting `(a@x, null)` over `orderDB` answers with
`emails = ["b@x", "a@x"]`: the `ORDER BY link_precedence DESC` in
`findContactFamily` sorts the secondary before the primary (the string
'secondary' is greater than 'primary'), so the primary's own email `a@x`
comes last, not first. -/
theorem c7_counterexample :
    (identify orderDB 9 (some "a@x") none).isSome = true
    ∧ ((identify orderDB 9 (some "a@x") none).getD default).response.primaryContactId = 1
    ∧ ((identify orderDB 9 (some "a@x") none).getD default).response.emails
        = ["b@x", "a@x"] := by
  decide

/-- C8 counterexample.  On equivalent one-contact stores (email `a@x`, phone
`111`), the request `(a@x, 2222)` makes the SQL engine create a secondary and
answer `phoneNumbers = ["111", "2222"]`, while the Firebase implementation
overwrites the matched contact's phone in place and answers
`phoneNumbers = ["2222"]` — the old phone is lost from its store.  The two
implementations are not behaviourally equivalent. -/
theorem c8_counterexample :
    ((identify oneContactDB 5 (some "a@x") (some "2222")).getD default).response.phoneNumbers
      = ["111", "2222"]
    ∧ ((fbReconcile oneContactFbDB 5 (some "a@x") (some "2222") "u1").getD default).2.phoneNumbers
      = ["2222"]
    ∧ ((fbReconcile oneContactFbDB 5 (some "a@x") (some "2222") "u1").getD default).1.contacts.any
        (fun c => c.id == 1 && c.phoneNumber == some "2222") = true
    ∧ (identify oneContactDB 5 (some "a@x") (some "2222")).isSome = true
    ∧ (fbReconcile oneContactFbDB 5 (some "a@x") (some "2222") "u1").isSome = true := by
  decide

/-- C9 (code bug).  Both reads of the engine run outside the transaction and
there is no unique constraint or lock: two requests for the same fresh pair
`(a@x, 111)` that both read the empty store before either commit (modelled by
`identifyOn` taking the empty snapshot) both insert, leaving two matching
primary contacts where the claim demands at most one. -/
theorem c9_race_duplicate_primaries :
    (((identifyOn ⟨[], 1⟩ ⟨[], 1⟩ 5 (some "a@x") (some "111")).bind (fun r1 =>
        identifyOn ⟨[], 1⟩ r1.db 6 (some "a@x") (some "111"))).isSome = true)
    ∧ primariesMatching
        (((identifyOn ⟨[], 1⟩ ⟨[], 1⟩ 5 (some "a@x") (some "111")).bind (fun r1 =>
            identifyOn ⟨[], 1⟩ r1.db 6 (some "a@x") (some "111"))).getD default).db
        (some "a@x") (some "111") = 2 := by
  decide

/-- C4.  When both request fragments are absent or empty (JavaScript-falsy),
the handler returns the 400 validation error before any store access: the
call yields no result and the store is exactly what it was. -/
theorem c4_validation_rejects_without_store_write (db : DB) (now : Nat)
    (email phoneNumber : Option String)
    (he : jsTruthy email = false) (hp : jsTruthy phoneNumber = false) :
    identify db now email phoneNumber = none ∧ identifyState db now email phoneNumber = db := by
  have hid : identify db now email phoneNumber = none := by
    simp [identify, identifyOn, he, hp]
  refine ⟨hid, ?_⟩
  simp [identifyState, hid]

/-- Witness for C4 at `email = some ""`, `phoneNumber = none` on a one-contact
store. -/
theorem c4_validation_witness :
    identify oneContactDB 7 (some "") none = none
    ∧ identifyState oneContactDB 7 (some "") none = oneContactDB :=
  c4_validation_rejects_without_store_write oneContactDB 7 (some "") none (by decide) (by decide)

/-! Generic list lemmas used by the path analysis. -/

theorem contains_iff_mem {α : Type} [BEq α] [LawfulBEq α] (l : List α) (a : α) :
    l.contains a = true ↔ a ∈ l := by
  simp [List.contains, List.elem_iff]

theorem mem_insertSorted {α : Type} (lt : α → α → Bool) (x a : α) (l : List α) :
    a ∈ insertSorted lt x l ↔ a = x ∨ a ∈ l := by
  induction l with
  | nil => simp [insertSorted]
  | cons y ys ih =>
    cases hy : lt y x with
    | true =>
      rw [insertSorted, if_pos hy]
      simp only [List.mem_cons, ih]
      tauto
    | false =>
      rw [insertSorted, if_neg (by simp [hy])]
      simp only [List.mem_cons]

theorem insertSorted_perm {α : Type} (lt : α → α → Bool) (x : α) (l : List α) :
    (insertSorted lt x l).Perm (x :: l) := by
  induction l with
  | nil => simp [insertSorted]
  | cons y ys ih =>
    cases hy : lt y x with
    | true =>
      rw [insertSorted, if_pos hy]
      exact (ih.cons y).trans (List.Perm.swap x y ys)
    | false =>
      rw [insertSorted, if_neg (by simp [hy])]

theorem sortRows_perm {α : Type} (lt : α → α → Bool) (l : List α) :
    (sortRows lt l).Perm l := by
  induction l with
  | nil => simp [sortRows]
  | cons x xs ih =>
    exact (insertSorted_perm lt x (sortRows lt xs)).trans (ih.cons x)

theorem mem_sortRows {α : Type} (lt : α → α → Bool) (a : α) (l : List α) :
    a ∈ sortRows lt l ↔ a ∈ l :=
  (sortRows_perm lt l).mem_iff

theorem sortRows_eq_nil_iff {α : Type} (lt : α → α → Bool) (l : List α) :
    sortRows lt l = [] ↔ l = [] := by
  constructor
  · intro h
    have := (sortRows_perm lt l).symm
    rw [h] at this
    exact this.eq_nil
  · intro h
    simp [h, sortRows]

theorem pairwise_createdLE_insertSorted (x : Contact) (l : List Contact)
    (h : l.Pairwise CreatedLE) : (insertSorted createdLT x l).Pairwise CreatedLE := by
  induction l with
  | nil => simp [insertSorted, List.pairwise_singleton]
  | cons y ys ih =>
    rw [List.pairwise_cons] at h
    cases hy : createdLT y x with
    | true =>
      have hyx : CreatedLE y x := by
        have : y.createdAt < x.createdAt := by simpa [createdLT] using hy
        simp only [CreatedLE]
        omega
      rw [insertSorted, if_pos hy, List.pairwise_cons]
      refine ⟨?_, ih h.2⟩
      intro z hz
      rcases (mem_insertSorted createdLT x z ys).1 hz with hzx | hzys
      · subst hzx; exact hyx
      · exact h.1 z hzys
    | false =>
      have hxy : CreatedLE x y := by
        have : ¬ (y.createdAt < x.createdAt) := by simpa [createdLT] using hy
        simp only [CreatedLE]
        omega
      rw [insertSorted, if_neg (by simp [hy]), List.pairwise_cons]
      refine ⟨?_, List.pairwise_cons.2 ⟨h.1, h.2⟩⟩
      intro z hz
      rcases List.mem_cons.1 hz with hzy | hzys
      · subst hzy; exact hxy
      · have hyz : CreatedLE y z := h.1 z hzys
        simp only [CreatedLE] at hxy hyz ⊢
        omega

theorem pairwise_createdLE_sortRows (l : List Contact) :
    (sortRows createdLT l).Pairwise CreatedLE := by
  induction l with
  | nil => simp [sortRows]
  | cons x xs ih => exact pairwise_createdLE_insertSorted x (sortRows createdLT xs) ih

theorem foldl_oldest_of_head_min (c : Contact) (rest : List Contact)
    (h : ∀ y ∈ rest, ¬ (y.createdAt < c.createdAt)) :
    rest.foldl
      (fun oldest current =>
        if current.createdAt < oldest.createdAt then current else oldest) c = c := by
  induction rest with
  | nil => rfl
  | cons y ys ih =>
    have hy : ¬ (y.createdAt < c.createdAt) := h y (List.mem_cons_self y ys)
    simp only [List.foldl_cons, if_neg hy]
    exact ih (fun z hz => h z (List.mem_cons_of_mem y hz))

theorem jsReduceOldest_sorted (l : List Contact) (h : l.Pairwise CreatedLE) :
    jsReduceOldest l = l.head? := by
  cases l with
  | nil => rfl
  | cons c rest =>
    rw [List.pairwise_cons] at h
    simp only [jsReduceOldest, List.head?]
    rw [foldl_oldest_of_head_min c rest
      (fun y hy => by have := h.1 y hy; simp only [CreatedLE] at this; omega)]

theorem find?_eq_head?_filter {α : Type} (p : α → Bool) (l : List α) :
    l.find? p = (l.filter p).head? := by
  induction l with
  | nil => rfl
  | cons x xs ih =>
    cases hx : p x with
    | true => rw [List.find?_cons_of_pos _ hx, List.filter_cons_of_pos hx, List.head?]
    | false => rw [List.find?_cons_of_neg _ (by simp [hx]), List.filter_cons_of_neg (by simp [hx]), ih]

theorem find?_eq_some_unique {α : Type} (p : α → Bool) (l : List α) (x : α)
    (hx : x ∈ l) (hpx : p x = true) (huniq : ∀ y ∈ l, p y = true → y = x) :
    l.find? p = some x := by
  induction l with
  | nil => cases hx
  | cons a t ih =>
    cases hpa : p a with
    | true =>
      have : a = x := huniq a (List.mem_cons_self a t) hpa
      rw [List.find?_cons_of_pos _ hpa, this]
    | false =>
      have hxt : x ∈ t := by
        rcases List.mem_cons.1 hx with hax | hxt
        · exfalso
          rw [hax] at hpx
          rw [hpx] at hpa
          cases hpa
        · exact hxt
      rw [List.find?_cons_of_neg _ (by simp [hpa])]
      exact ih hxt (fun y hy hpy => huniq y (List.mem_cons_of_mem a hy) hpy)

theorem filter_eq_singleton_unique {α β : Type} (p : α → Bool) (f : α → β) (l : List α) (x : α)
    (hn : (l.map f).Nodup) (hx : x ∈ l) (hpx : p x = true)
    (huniq : ∀ y ∈ l, p y = true → y = x) :
    l.filter p = [x] := by
  induction l with
  | nil => cases hx
  | cons a t ih =>
    rw [List.map_cons, List.nodup_cons] at hn
    cases hpa : p a with
    | true =>
      have hax : a = x := huniq a (List.mem_cons_self a t) hpa
      have ht : t.filter p = [] := by
        rw [List.filter_eq_nil_iff]
        intro z hz hpz
        have hza : z = a := (huniq z (List.mem_cons_of_mem a hz) hpz).trans hax.symm
        subst hza
        exact absurd (List.mem_map_of_mem f hz) hn.1
      rw [List.filter_cons_of_pos hpa, ht, hax]
    | false =>
      have hxt : x ∈ t := by
        rcases List.mem_cons.1 hx with hax | hxt
        · exfalso
          rw [hax] at hpx
          rw [hpx] at hpa
          cases hpa
        · exact hxt
      rw [List.filter_cons_of_neg (by simp [hpa])]
      exact ih hn.2 hxt (fun y hy hpy => huniq y (List.mem_cons_of_mem a hy) hpy)

theorem length_filter_mono {α : Type} (p q : α → Bool) (l : List α)
    (h : ∀ x, p x = true → q x = true) :
    (l.filter p).length ≤ (l.filter q).length := by
  induction l with
  | nil => simp
  | cons a t ih =>
    cases hpa : p a with
    | true =>
      have hqa := h a hpa
      rw [List.filter_cons_of_pos hpa, List.filter_cons_of_pos hqa]
      exact Nat.succ_le_succ ih
    | false =>
      rw [List.filter_cons_of_neg (by simp [hpa])]
      cases hqa : q a with
      | true =>
        rw [List.filter_cons_of_pos hqa]
        exact Nat.le_succ_of_le ih
      | false =>
        rw [List.filter_cons_of_neg (by simp [hqa])]
        exact ih

theorem length_filter_lt {α : Type} (p q : α → Bool) (l : List α)
    (h : ∀ x, p x = true → q x = true) (x0 : α) (hx : x0 ∈ l)
    (hq : q x0 = true) (hp : p x0 = false) :
    (l.filter p).length < (l.filter q).length := by
  induction l with
  | nil => cases hx
  | cons a t ih =>
    rcases List.mem_cons.1 hx with hax | hxt
    · subst hax
      rw [List.filter_cons_of_neg (by simp [hp]), List.filter_cons_of_pos hq]
      exact Nat.lt_succ_of_le (length_filter_mono p q t h)
    · cases hpa : p a with
      | true =>
        have hqa := h a hpa
        rw [List.filter_cons_of_pos hpa, List.filter_cons_of_pos hqa]
        exact Nat.succ_lt_succ (ih hxt)
      | false =>
        rw [List.filter_cons_of_neg (by simp [hpa])]
        cases hqa : q a with
        | true =>
          rw [List.filter_cons_of_pos hqa]
          exact Nat.lt_succ_of_lt (ih hxt)
        | false =>
          rw [List.filter_cons_of_neg (by simp [hqa])]
          exact ih hxt

theorem mem_jsCompact (l : List (Option String)) (s : String) :
    s ∈ jsCompact l ↔ some s ∈ l ∧ ¬ (s = "") := by
  simp [jsCompact, List.mem_filter, List.mem_filterMap]

/-! Lemmas about the recursive CTE saturation (`familyIds`): it computes
exactly the declarative reachability `FamReach`. -/

theorem subset_familyStep (rows : List Contact) (ids : List Nat) :
    ∀ x ∈ ids, x ∈ familyStep rows ids := by
  intro x hx
  exact List.mem_append_left _ hx

theorem subset_familyIter (rows : List Contact) (n : Nat) (ids : List Nat) :
    ∀ x ∈ ids, x ∈ familyIter rows n ids := by
  induction n generalizing ids with
  | zero => intro x hx; exact hx
  | succ m ih =>
    intro x hx
    exact ih (familyStep rows ids) x (subset_familyStep rows ids x hx)

theorem famReach_of_mem_familyStep (rows : List Contact) (root : Nat) (ids : List Nat)
    (hinv : ∀ y ∈ ids, FamReach rows root y) :
    ∀ x ∈ familyStep rows ids, FamReach rows root x := by
  intro x hx
  rcases List.mem_append.1 hx with hid | hnew
  · exact hinv x hid
  · rcases List.mem_map.1 hnew with ⟨c, hc, hcid⟩
    rw [List.mem_filter] at hc
    have hdel : c.deletedAt = none := by
      have := hc.2
      simp only [Bool.and_eq_true, Option.isNone_iff_eq_none] at this
      exact this.1.1
    have hcond : linkedCond rows ids c = true := by
      have := hc.2
      simp only [Bool.and_eq_true] at this
      exact this.2
    rw [linkedCond, Bool.or_eq_true] at hcond
    rcases hcond with hchild | hparent
    · subst hcid
      rcases hli : c.linkedId with _ | t
      · rw [hli] at hchild; cases hchild
      · rw [hli] at hchild
        have ht : t ∈ ids := (contains_iff_mem ids t).1 hchild
        exact FamReach.toChild t c (hinv t ht) hc.1 hdel hli
    · subst hcid
      rw [List.any_eq_true] at hparent
      rcases hparent with ⟨m, hm, hmc⟩
      simp only [Bool.and_eq_true] at hmc
      have hmid : m.id ∈ ids := (contains_iff_mem ids m.id).1 hmc.1
      have hml : m.linkedId = some c.id := by
        have := hmc.2
        rwa [beq_iff_eq] at this
      exact FamReach.toParent m c (hinv m.id hmid) hm hml hc.1 hdel

theorem famReach_of_mem_familyIter (rows : List Contact) (root : Nat) (n : Nat)
    (ids : List Nat) (hinv : ∀ y ∈ ids, FamReach rows root y) :
    ∀ x ∈ familyIter rows n ids, FamReach rows root x := by
  induction n generalizing ids with
  | zero => exact hinv
  | succ m ih =>
    intro x hx
    exact ih (familyStep rows ids) (famReach_of_mem_familyStep rows root ids hinv) x hx

theorem famReach_of_mem_familyBase (rows : List Contact) (root : Nat) :
    ∀ x ∈ familyBase rows root, FamReach rows root x := by
  intro x hx
  rcases List.mem_map.1 hx with ⟨c, hc, hcid⟩
  rw [List.mem_filter] at hc
  simp only [Bool.and_eq_true, beq_iff_eq, Option.isNone_iff_eq_none] at hc
  have : FamReach rows root root := FamReach.base c hc.1 hc.2.1 hc.2.2
  rw [← hcid, hc.2.1]
  exact this

/-- Soundness: every id collected by the CTE is declaratively reachable. -/
theorem famReach_of_mem_familyIds (db : DB) (root : Nat) :
    ∀ x ∈ familyIds db root, FamReach db.contacts root x :=
  famReach_of_mem_familyIter db.contacts root db.contacts.length
    (familyBase db.contacts root) (famReach_of_mem_familyBase db.contacts root)

theorem familyStep_of_new_nil (rows : List Contact) (ids : List Nat)
    (h : familyNew rows ids = []) : familyStep rows ids = ids := by
  rw [familyStep, h, List.append_nil]

theorem familyIter_of_new_nil (rows : List Contact) (n : Nat) (ids : List Nat)
    (h : familyNew rows ids = []) : familyIter rows n ids = ids := by
  induction n with
  | zero => rfl
  | succ m ih =>
    rw [familyIter, familyStep_of_new_nil rows ids h]
    exact ih

theorem saturated_of_new_nil (rows : List Contact) (ids : List Nat)
    (h : familyNew rows ids = []) : Saturated rows ids := by
  intro x hx
  rwa [familyStep_of_new_nil rows ids h] at hx

theorem familyMeasure_lt_of_new_ne (rows : List Contact) (ids : List Nat)
    (h : familyNew rows ids ≠ []) :
    familyMeasure rows (familyStep rows ids) < familyMeasure rows ids := by
  rcases List.exists_mem_of_ne_nil _ h with ⟨x0, hx0⟩
  rcases List.mem_map.1 hx0 with ⟨c, hc, hcid⟩
  rw [List.mem_filter] at hc
  have hnotin : ids.contains c.id = false := by
    have := hc.2
    simp only [Bool.and_eq_true, Bool.not_eq_true'] at this
    exact this.1.2
  have himp : ∀ i, (!((familyStep rows ids).contains i)) = true →
      (!(ids.contains i)) = true := by
    intro i hi
    simp only [Bool.not_eq_true', ← Bool.not_eq_true] at hi ⊢
    intro hmem
    exact hi ((contains_iff_mem _ i).2
      (subset_familyStep rows ids i ((contains_iff_mem ids i).1 hmem)))
  have hq : (!(ids.contains c.id)) = true := by rw [hnotin]; rfl
  have hp : (!((familyStep rows ids).contains c.id)) = true → False := by
    intro hcontra
    simp only [Bool.not_eq_true'] at hcontra
    have : c.id ∈ familyStep rows ids := by
      rw [familyStep]
      exact List.mem_append_right _ (hcid ▸ hx0)
    rw [(contains_iff_mem _ c.id).2 this] at hcontra
    cases hcontra
  have hpf : (!((familyStep rows ids).contains c.id)) = false := by
    cases hb : (!((familyStep rows ids).contains c.id)) with
    | true => exact absurd hb hp
    | false => rfl
  exact length_filter_lt _ _ (rows.map (·.id)) himp c.id
    (List.mem_map_of_mem (·.id) hc.1) hq hpf

theorem saturated_familyIter (rows : List Contact) (n : Nat) (ids : List Nat)
    (h : familyMeasure rows ids ≤ n) : Saturated rows (familyIter rows n ids) := by
  induction n generalizing ids with
  | zero =>
    have hzero : familyMeasure rows ids = 0 := Nat.le_zero.1 h
    have hnil : (rows.map (·.id)).filter (fun i => !(ids.contains i)) = [] :=
      List.length_eq_zero.1 hzero
    have hnew : familyNew rows ids = [] := by
      rw [familyNew, List.map_eq_nil_iff, List.filter_eq_nil_iff]
      intro c hc
      have hid : c.id ∈ rows.map (·.id) := List.mem_map_of_mem (·.id) hc
      have : (fun i => !(ids.contains i)) c.id = false := by
        cases hb : (fun i => !(ids.contains i)) c.id with
        | true =>
          exfalso
          have : c.id ∈ (rows.map (·.id)).filter (fun i => !(ids.contains i)) :=
            List.mem_filter.2 ⟨hid, hb⟩
          rw [hnil] at this
          cases this
        | false => rfl
      simp only [Bool.not_eq_false'] at this
      intro hcontra
      simp only [Bool.and_eq_true, Bool.not_eq_true'] at hcontra
      rw [hcontra.1.2] at this
      cases this
    exact saturated_of_new_nil rows ids hnew
  | succ m ih =>
    rw [familyIter]
    by_cases hnew : familyNew rows ids = []
    · rw [familyStep_of_new_nil rows ids hnew, familyIter_of_new_nil rows m ids hnew]
      exact saturated_of_new_nil rows ids hnew
    · have hlt := familyMeasure_lt_of_new_ne rows ids hnew
      exact ih (familyStep rows ids) (by omega)

theorem saturated_familyIds (db : DB) (root : Nat) :
    Saturated db.contacts (familyIds db root) := by
  apply saturated_familyIter
  calc familyMeasure db.contacts (familyBase db.contacts root)
      ≤ (db.contacts.map (·.id)).length := List.length_filter_le _ _
    _ = db.contacts.length := List.length_map _ _

/-- Completeness: every declaratively reachable id is collected by the CTE. -/
theorem mem_familyIds_of_famReach (db : DB) (root : Nat) (x : Nat)
    (h : FamReach db.contacts root x) : x ∈ familyIds db root := by
  induction h with
  | base c hc hcid hdel =>
    apply subset_familyIter
    rw [familyBase]
    apply List.mem_map.2
    refine ⟨c, List.mem_filter.2 ⟨hc, ?_⟩, hcid⟩
    simp [hcid, hdel]
  | toChild t c _ hc hdel hli ih =>
    by_cases hmem : c.id ∈ familyIds db root
    · exact hmem
    · apply saturated_familyIds db root
      rw [familyStep]
      apply List.mem_append_right
      rw [familyNew]
      apply List.mem_map.2
      refine ⟨c, List.mem_filter.2 ⟨hc, ?_⟩, rfl⟩
      have hcont : (familyIds db root).contains c.id = false := by
        cases hb : (familyIds db root).contains c.id with
        | true => exact absurd ((contains_iff_mem _ c.id).1 hb) hmem
        | false => rfl
      have hlc : linkedCond db.contacts (familyIds db root) c = true := by
        rw [linkedCond, Bool.or_eq_true]
        left
        rw [hli]
        exact (contains_iff_mem _ t).2 ih
      simp only [Bool.and_eq_true, Option.isNone_iff_eq_none, Bool.not_eq_true']
      exact ⟨⟨hdel, hcont⟩, hlc⟩
  | toParent m c _ hm hml hc hdel ih =>
    by_cases hmem : c.id ∈ familyIds db root
    · exact hmem
    · apply saturated_familyIds db root
      rw [familyStep]
      apply List.mem_append_right
      rw [familyNew]
      apply List.mem_map.2
      refine ⟨c, List.mem_filter.2 ⟨hc, ?_⟩, rfl⟩
      have hcont : (familyIds db root).contains c.id = false := by
        cases hb : (familyIds db root).contains c.id with
        | true => exact absurd ((contains_iff_mem _ c.id).1 hb) hmem
        | false => rfl
      have hlc : linkedCond db.contacts (familyIds db root) c = true := by
        rw [linkedCond, Bool.or_eq_true]
        right
        rw [List.any_eq_true]
        refine ⟨m, hm, ?_⟩
        simp only [Bool.and_eq_true]
        exact ⟨(contains_iff_mem _ m.id).2 ih, by rw [hml]; exact beq_self_eq_true _⟩
      simp only [Bool.and_eq_true, Option.isNone_iff_eq_none, Bool.not_eq_true']
      exact ⟨⟨hdel, hcont⟩, hlc⟩

/-- Reachability is monotone under row transformations that preserve id and
deletion status and only rewrite the `linked_id` of rows that had none. -/
theorem famReach_mono (rows rows' : List Contact) (root : Nat)
    (h : ∀ c ∈ rows, ∃ c', c' ∈ rows' ∧ c'.id = c.id ∧ c'.deletedAt = c.deletedAt
      ∧ (c.linkedId = none ∨ c'.linkedId = c.linkedId)) (x : Nat)
    (hr : FamReach rows root x) : FamReach rows' root x := by
  induction hr with
  | base c hc hcid hdel =>
    rcases h c hc with ⟨c', hc', hid, hdel', _⟩
    exact FamReach.base c' hc' (hid.trans hcid) (hdel'.trans hdel)
  | toChild t c _ hc hdel hli ih =>
    rcases h c hc with ⟨c', hc', hid, hdel', hlink⟩
    rcases hlink with hnone | hsame
    · rw [hli] at hnone; cases hnone
    · rw [← hid]
      exact FamReach.toChild t c' ih hc' (hdel'.trans hdel) (hsame.trans hli)
  | toParent m c _ hm hml hc hdel ih =>
    rcases h m hm with ⟨m', hm', hmid, _, hmlink⟩
    rcases h c hc with ⟨c', hc', hcid, hcdel, _⟩
    rcases hmlink with hnone | hsame
    · rw [hml] at hnone; cases hnone
    · rw [← hcid]
      apply FamReach.toParent m' c' (by rw [hmid]; exact ih) hm'
        (by rw [hsame, hml, hcid]) hc' (hcdel.trans hdel)

/-! Frame lemmas: every write path only rewrites `link_precedence`,
`linked_id`, `updated_at`, or appends new rows. -/

theorem sameShell_refl (a : Contact) : SameShell a a :=
  ⟨rfl, rfl, rfl, rfl, rfl⟩

theorem sameShell_trans {a b c : Contact} (h1 : SameShell a b) (h2 : SameShell b c) :
    SameShell a c :=
  ⟨h2.1.trans h1.1, h2.2.1.trans h1.2.1, h2.2.2.1.trans h1.2.2.1,
   h2.2.2.2.1.trans h1.2.2.2.1, h2.2.2.2.2.trans h1.2.2.2.2⟩

theorem frameExtends_refl (l : List Contact) : FrameExtends l l := by
  refine ⟨le_refl _, ?_⟩
  intro i h1 h2
  have : (⟨i, h1⟩ : Fin l.length) = ⟨i, h2⟩ := rfl
  rw [this]
  exact sameShell_refl _

theorem frameExtends_map (l : List Contact) (f : Contact → Contact)
    (hf : ∀ c, SameShell c (f c)) : FrameExtends l (l.map f) := by
  refine ⟨by rw [List.length_map], ?_⟩
  intro i h1 h2
  simp only [List.get_eq_getElem, List.getElem_map]
  exact hf _

theorem frameExtends_append (l ext : List Contact) : FrameExtends l (l ++ ext) := by
  refine ⟨by simp, ?_⟩
  intro i h1 h2
  simp only [List.get_eq_getElem, List.getElem_append_left h1]
  exact sameShell_refl _

theorem frameExtends_trans {l1 l2 l3 : List Contact}
    (h12 : FrameExtends l1 l2) (h23 : FrameExtends l2 l3) : FrameExtends l1 l3 := by
  refine ⟨le_trans h12.1 h23.1, ?_⟩
  intro i h1 h3
  have h2 : i < l2.length := lt_of_lt_of_le h1 h12.1
  exact sameShell_trans (h12.2 i h1 h2) (h23.2 i h2 h3)

theorem frameExtends_applyPromote (snap : DB) (email phoneNumber : Option String)
    (now : Nat) (l : List Contact) :
    FrameExtends l (applyPromoteWrite snap email phoneNumber now l) := by
  rw [applyPromoteWrite]
  by_cases h : (foundPrimary snap email phoneNumber).isNone = true
  · rw [if_pos h]
    apply frameExtends_map
    intro c
    rw [promoteFun]
    by_cases hc : (c.id == (actingPrimary snap email phoneNumber).id) = true
    · rw [if_pos hc]; exact ⟨rfl, rfl, rfl, rfl, rfl⟩
    · rw [if_neg hc]; exact sameShell_refl c
  · rw [if_neg h]
    exact frameExtends_refl l

theorem frameExtends_applyDemote (snap : DB) (email phoneNumber : Option String)
    (now : Nat) (l : List Contact) :
    FrameExtends l (applyDemoteWrites snap email phoneNumber now l) := by
  rw [applyDemoteWrites]
  by_cases h : (multiplePrimaries snap email phoneNumber).length > 1
  · rw [if_pos h]
    apply frameExtends_map
    intro c
    rw [demoteFun]
    by_cases hc : (demotedIds snap email phoneNumber).contains c.id = true
    · rw [if_pos hc]; exact ⟨rfl, rfl, rfl, rfl, rfl⟩
    · rw [if_neg hc]; exact sameShell_refl c
  · rw [if_neg h]
    exact frameExtends_refl l

/-- C10.  The SQL `/identify` operation never modifies a stored contact's
`email` or `phone_number` (nor its `id`, `created_at`, `deleted_at`): every
pre-existing row of the store keeps those columns, at its position, and new
rows are only appended — the two UPDATE statements touch only
`link_precedence`, `linked_id` and `updated_at`. -/
theorem c10_identify_frame (db : DB) (now : Nat) (email phoneNumber : Option String)
    (res : IdentifyResult) (h : identify db now email phoneNumber = some res) :
    FrameExtends db.contacts res.db.contacts := by
  rw [identify, identifyOn] at h
  by_cases hval : (!(jsTruthy email) && !(jsTruthy phoneNumber)) = true
  · rw [if_pos hval] at h; cases h
  · rw [if_neg hval] at h
    by_cases hemp : (theExisting db email phoneNumber).isEmpty = true
    · rw [if_pos hemp] at h
      have hres := (Option.some.inj h).symm
      subst hres
      exact frameExtends_append db.contacts [freshContact db.nextId now email phoneNumber]
    · rw [if_neg hemp] at h
      have hres := (Option.some.inj h).symm
      subst hres
      have hmid : FrameExtends (applyPromoteWrite db email phoneNumber now db.contacts)
          (if needNewContact db email phoneNumber then
            applyPromoteWrite db email phoneNumber now db.contacts
              ++ [newSecondary db db.nextId now email phoneNumber]
          else applyPromoteWrite db email phoneNumber now db.contacts) := by
        by_cases hneed : needNewContact db email phoneNumber = true
        · rw [if_pos hneed]
          exact frameExtends_append _ _
        · rw [if_neg hneed]
          exact frameExtends_refl _
      exact frameExtends_trans
        (frameExtends_applyPromote db email phoneNumber now db.contacts)
        (frameExtends_trans hmid (frameExtends_applyDemote db email phoneNumber now _))

/-- Witness for C10: a merge request over `mergeDB` (which demotes contact 2
and inserts a row) leaves every pre-existing row's identity columns unchanged. -/
theorem c10_identify_frame_witness :
    FrameExtends mergeDB.contacts
      (((identify mergeDB 9 (some "a@x") (some "111")).getD default).db.contacts) :=
  c10_identify_frame mergeDB 9 (some "a@x") (some "111")
    ((identify mergeDB 9 (some "a@x") (some "111")).getD default) (by decide)

theorem applyDemote_secondary_at (snap : DB) (email phoneNumber : Option String)
    (now : Nat) (l : List Contact) (i : Nat) (c c' : Contact)
    (h : l[i]? = some c) (h' : (applyDemoteWrites snap email phoneNumber now l)[i]? = some c')
    (hs : c.linkPrecedence = .secondary) : c'.linkPrecedence = .secondary := by
  rw [applyDemoteWrites] at h'
  by_cases hb : (multiplePrimaries snap email phoneNumber).length > 1
  · rw [if_pos hb, List.getElem?_map, h] at h'
    have hc' := (Option.some.inj h').symm
    subst hc'
    rw [demoteFun]
    by_cases hc : c.id ∈ demotedIds snap email phoneNumber
    · simp [hc]
    · simpa [hc] using hs
  · rw [if_neg hb, h] at h'
    have hc' := (Option.some.inj h').symm
    subst hc'
    exact hs

/-- C3 amended.  The zero-primaries branch does promote a matched secondary
(see the counterexample), but whenever the matched set contains at least one
primary, no contact is ever promoted: every row that was secondary before the
call is still secondary afterwards (the only precedence UPDATEs then are
demotions). -/
theorem c3_amended_no_promotion_when_primary_matched (db : DB) (now : Nat)
    (email phoneNumber : Option String) (res : IdentifyResult)
    (h : identify db now email phoneNumber = some res)
    (hprim : (theExisting db email phoneNumber).any Contact.isPrimary = true) :
    ∀ (i : Nat) (c c' : Contact), db.contacts[i]? = some c → res.db.contacts[i]? = some c' →
      c.linkPrecedence = .secondary → c'.linkPrecedence = .secondary := by
  intro i c c' hc hc' hs
  have hfound : (foundPrimary db email phoneNumber).isSome = true := by
    rw [foundPrimary, List.find?_isSome]
    rcases List.any_eq_true.1 hprim with ⟨x, hx, hpx⟩
    exact ⟨x, hx, hpx⟩
  have hne : theExisting db email phoneNumber ≠ [] := by
    intro hnil
    rw [hnil] at hprim
    cases hprim
  have hemp : (theExisting db email phoneNumber).isEmpty = false := by
    cases hx : theExisting db email phoneNumber with
    | nil => exact absurd hx hne
    | cons a t => rfl
  rw [identify, identifyOn] at h
  by_cases hval : (!(jsTruthy email) && !(jsTruthy phoneNumber)) = true
  · rw [if_pos hval] at h; cases h
  · rw [if_neg hval] at h
    rw [if_neg (by rw [hemp]; exact Bool.false_ne_true)] at h
    have hres := (Option.some.inj h).symm
    subst hres
    have hnone : (foundPrimary db email phoneNumber).isNone = false := by
      cases hfp : foundPrimary db email phoneNumber with
      | none => rw [hfp] at hfound; cases hfound
      | some x => rfl
    have hpromote : applyPromoteWrite db email phoneNumber now db.contacts = db.contacts := by
      rw [applyPromoteWrite, if_neg (by rw [hnone]; exact Bool.false_ne_true)]
    rw [hpromote] at hc'
    have hi : i < db.contacts.length := by
      by_contra hge
      rw [List.getElem?_eq_none (Nat.le_of_not_lt hge)] at hc
      cases hc
    have hafter : (if needNewContact db email phoneNumber then
        db.contacts ++ [newSecondary db db.nextId now email phoneNumber]
        else db.contacts)[i]? = some c := by
      by_cases hneed : needNewContact db email phoneNumber = true
      · rw [if_pos hneed, List.getElem?_append_left hi]
        exact hc
      · rw [if_neg hneed]
        exact hc
    exact applyDemote_secondary_at db email phoneNumber now
      (if needNewContact db email phoneNumber then
        db.contacts ++ [newSecondary db db.nextId now email phoneNumber]
        else db.contacts) i c c' hafter hc' hs

/-- Witness for the amended C3: over `mergeDBwithSecondary` (whose matched set
contains primaries) the pre-existing secondary S3 at position 2 is still
secondary after the merge request. -/
theorem c3_amended_witness :
    ((identify mergeDBwithSecondary 10 (some "a@x") (some "111")).getD default).db.contacts[2]?
      = some ⟨3, some "c@x", none, some 2, Precedence.secondary, 3, 3, none⟩
    ∧ (⟨3, some "c@x", none, some 2, Precedence.secondary, 3, 3, none⟩ : Contact).linkPrecedence
      = Precedence.secondary :=
  ⟨by decide,
   c3_amended_no_promotion_when_primary_matched mergeDBwithSecondary 10
     (some "a@x") (some "111")
     ((identify mergeDBwithSecondary 10 (some "a@x") (some "111")).getD default)
     (by decide) (by decide) 2
     ⟨3, some "c@x", none, some 2, Precedence.secondary, 3, 3, none⟩
     ⟨3, some "c@x", none, some 2, Precedence.secondary, 3, 3, none⟩
     (by decide) (by decide) (by decide)⟩

/-! Path characterisation: the two `some`-producing branches of `identifyOn`. -/

theorem mem_of_mem_theExisting (snap : DB) (email phoneNumber : Option String)
    (x : Contact) (hx : x ∈ theExisting snap email phoneNumber) : x ∈ snap.contacts := by
  rw [theExisting, findRelatedContacts, mem_sortRows] at hx
  exact (List.mem_filter.1 hx).1

theorem matches_of_mem_theExisting (snap : DB) (email phoneNumber : Option String)
    (x : Contact) (hx : x ∈ theExisting snap email phoneNumber) :
    matchesRequest email phoneNumber x = true := by
  rw [theExisting, findRelatedContacts, mem_sortRows] at hx
  exact (List.mem_filter.1 hx).2

theorem identify_fresh_eq (db : DB) (now : Nat) (email phoneNumber : Option String)
    (res : IdentifyResult) (h : identify db now email phoneNumber = some res)
    (hempty : theExisting db email phoneNumber = []) :
    res = ⟨⟨db.contacts ++ [freshContact db.nextId now email phoneNumber], db.nextId + 1⟩,
      ⟨db.nextId, respList email, respList phoneNumber, []⟩⟩ := by
  rw [identify, identifyOn] at h
  by_cases hval : (!(jsTruthy email) && !(jsTruthy phoneNumber)) = true
  · rw [if_pos hval] at h; cases h
  · rw [if_neg hval, if_pos (by rw [hempty]; rfl)] at h
    exact (Option.some.inj h).symm

theorem identify_matched_eq (db : DB) (now : Nat) (email phoneNumber : Option String)
    (res : IdentifyResult) (h : identify db now email phoneNumber = some res)
    (hmatch : theExisting db email phoneNumber ≠ []) :
    res = ⟨⟨applyDemoteWrites db email phoneNumber now
        (if needNewContact db email phoneNumber then
          applyPromoteWrite db email phoneNumber now db.contacts
            ++ [newSecondary db db.nextId now email phoneNumber]
         else applyPromoteWrite db email phoneNumber now db.contacts),
        if needNewContact db email phoneNumber then db.nextId + 1 else db.nextId⟩,
      assembleResponse db db.nextId now email phoneNumber⟩ := by
  rw [identify, identifyOn] at h
  by_cases hval : (!(jsTruthy email) && !(jsTruthy phoneNumber)) = true
  · rw [if_pos hval] at h; cases h
  · have hemp : (theExisting db email phoneNumber).isEmpty = false := by
      cases hx : theExisting db email phoneNumber with
      | nil => exact absurd hx hmatch
      | cons a t => rfl
    rw [if_neg hval, if_neg (by rw [hemp]; exact Bool.false_ne_true)] at h
    exact (Option.some.inj h).symm

theorem assembleResponse_primaryContactId (snap : DB) (secId now : Nat)
    (email phoneNumber : Option String) :
    (assembleResponse snap secId now email phoneNumber).primaryContactId
      = finalPrimaryId snap email phoneNumber := rfl

/-! The acting primary (line 174/178) coincides with the surviving primary of
the consolidation branch (line 221). -/

theorem memContacts_eq_of_found (snap : DB) (email phoneNumber : Option String)
    (pc : Contact) (hfound : foundPrimary snap email phoneNumber = some pc) :
    memContacts snap email phoneNumber = theExisting snap email phoneNumber := by
  simp [memContacts, hfound]

theorem foundPrimary_none_all (snap : DB) (email phoneNumber : Option String)
    (hnone : foundPrimary snap email phoneNumber = none) :
    ∀ x ∈ theExisting snap email phoneNumber, Contact.isPrimary x = false := by
  intro x hx
  have := List.find?_eq_none.1 hnone x hx
  cases hb : Contact.isPrimary x with
  | true => exact absurd hb this
  | false => rfl

theorem multiplePrimaries_promote_case (snap : DB) (email phoneNumber : Option String)
    (hnone : foundPrimary snap email phoneNumber = none) (c0 : Contact) (rest : List Contact)
    (hex : theExisting snap email phoneNumber = c0 :: rest) :
    multiplePrimaries snap email phoneNumber = [{ c0 with linkPrecedence := .primary }] := by
  have hrest : rest.filter Contact.isPrimary = [] := by
    rw [List.filter_eq_nil_iff]
    intro x hx
    have := foundPrimary_none_all snap email phoneNumber hnone x
      (by rw [hex]; exact List.mem_cons_of_mem c0 hx)
    simp [this]
  rw [multiplePrimaries, memContacts, hnone, hex]
  rw [List.filter_cons_of_pos (by rfl), hrest]

theorem acting_id_eq_finalPrimaryId (snap : DB) (email phoneNumber : Option String) :
    (actingPrimary snap email phoneNumber).id = finalPrimaryId snap email phoneNumber := by
  rw [finalPrimaryId]
  by_cases hlen : (multiplePrimaries snap email phoneNumber).length > 1
  · rw [if_pos hlen]
    cases hfp : foundPrimary snap email phoneNumber with
    | some pc =>
      have hmpf : multiplePrimaries snap email phoneNumber
          = (theExisting snap email phoneNumber).filter Contact.isPrimary := by
        rw [multiplePrimaries, memContacts_eq_of_found snap email phoneNumber pc hfp]
      have hpw : (multiplePrimaries snap email phoneNumber).Pairwise CreatedLE := by
        rw [hmpf]
        exact List.Pairwise.sublist (List.filter_sublist _)
          (by rw [theExisting, findRelatedContacts]; exact pairwise_createdLE_sortRows _)
      have hh : (multiplePrimaries snap email phoneNumber).head? = some pc := by
        rw [hmpf, ← find?_eq_head?_filter]
        exact hfp
      rw [oldestPrimary, jsReduceOldest_sorted _ hpw, hh, actingPrimary, hfp]
      rfl
    | none =>
      exfalso
      cases hex : theExisting snap email phoneNumber with
      | nil =>
        rw [multiplePrimaries, memContacts, hfp, hex] at hlen
        simp at hlen
      | cons c0 rest =>
        rw [multiplePrimaries_promote_case snap email phoneNumber hfp c0 rest hex] at hlen
        simp at hlen
  · rw [if_neg hlen]

theorem newSecondary_linkedId_eq_final (snap : DB) (newId now : Nat)
    (email phoneNumber : Option String) :
    (newSecondary snap newId now email phoneNumber).linkedId
      = some (finalPrimaryId snap email phoneNumber) := by
  show some (actingPrimary snap email phoneNumber).id = _
  rw [acting_id_eq_finalPrimaryId]

/-! Positional effect of the write functions. -/

theorem length_applyPromote (snap : DB) (email phoneNumber : Option String) (now : Nat)
    (l : List Contact) : (applyPromoteWrite snap email phoneNumber now l).length = l.length := by
  rw [applyPromoteWrite]
  by_cases hb : (foundPrimary snap email phoneNumber).isNone = true
  · rw [if_pos hb, List.length_map]
  · rw [if_neg hb]

theorem length_applyDemote (snap : DB) (email phoneNumber : Option String) (now : Nat)
    (l : List Contact) : (applyDemoteWrites snap email phoneNumber now l).length = l.length := by
  rw [applyDemoteWrites]
  by_cases hb : (multiplePrimaries snap email phoneNumber).length > 1
  · rw [if_pos hb, List.length_map]
  · rw [if_neg hb]

theorem demotedIds_nil_of_not_gt (snap : DB) (email phoneNumber : Option String)
    (h : ¬ (multiplePrimaries snap email phoneNumber).length > 1) :
    demotedIds snap email phoneNumber = [] := by
  cases hmp : multiplePrimaries snap email phoneNumber with
  | nil => rw [demotedIds, hmp]; rfl
  | cons x rest =>
    have hrest : rest = [] := by
      rw [hmp] at h
      cases rest with
      | nil => rfl
      | cons y t => exfalso; apply h; simp
    subst hrest
    rw [demotedIds, oldestPrimary, hmp]
    simp [jsReduceOldest]

theorem applyDemote_getElem? (snap : DB) (email phoneNumber : Option String) (now : Nat)
    (l : List Contact) (i : Nat) :
    (applyDemoteWrites snap email phoneNumber now l)[i]?
      = (l[i]?).map (demoteFun snap email phoneNumber now) := by
  rw [applyDemoteWrites]
  by_cases hb : (multiplePrimaries snap email phoneNumber).length > 1
  · rw [if_pos hb, List.getElem?_map]
  · rw [if_neg hb]
    have hnil := demotedIds_nil_of_not_gt snap email phoneNumber hb
    cases hli : l[i]? with
    | none => rfl
    | some c => simp [demoteFun, hnil]

theorem demoteFun_id (snap : DB) (email phoneNumber : Option String) (now : Nat)
    (c : Contact) : (demoteFun snap email phoneNumber now c).id = c.id := by
  rw [demoteFun]
  by_cases hc : (demotedIds snap email phoneNumber).contains c.id = true
  · rw [if_pos hc]
  · rw [if_neg hc]

theorem demoteFun_eq_self (snap : DB) (email phoneNumber : Option String) (now : Nat)
    (c : Contact) (hc : (demotedIds snap email phoneNumber).contains c.id = false) :
    demoteFun snap email phoneNumber now c = c := by
  rw [demoteFun, if_neg (by rw [hc]; exact Bool.false_ne_true)]

theorem applyPromote_at (snap : DB) (email phoneNumber : Option String) (now : Nat)
    (l : List Contact) (i : Nat) (c : Contact) (h : l[i]? = some c) :
    ∃ ca, (applyPromoteWrite snap email phoneNumber now l)[i]? = some ca
      ∧ ca.id = c.id ∧ ca.email = c.email ∧ ca.phoneNumber = c.phoneNumber
      ∧ ca.createdAt = c.createdAt ∧ ca.deletedAt = c.deletedAt
      ∧ ca.linkedId = c.linkedId := by
  rw [applyPromoteWrite]
  by_cases hb : (foundPrimary snap email phoneNumber).isNone = true
  · rw [if_pos hb]
    refine ⟨promoteFun snap email phoneNumber now c, ?_, ?_⟩
    · rw [List.getElem?_map, h]; rfl
    · rw [promoteFun]
      by_cases hc : (c.id == (actingPrimary snap email phoneNumber).id) = true
      · rw [if_pos hc]; exact ⟨rfl, rfl, rfl, rfl, rfl, rfl⟩
      · rw [if_neg hc]; exact ⟨rfl, rfl, rfl, rfl, rfl, rfl⟩
  · rw [if_neg hb, h]
    exact ⟨c, rfl, rfl, rfl, rfl, rfl, rfl, rfl⟩

/-! Bounds on the ids the demotion loop touches. -/

theorem mem_memContacts_id (snap : DB) (email phoneNumber : Option String) (r : Contact)
    (hr : r ∈ memContacts snap email phoneNumber) :
    ∃ r0, r0 ∈ snap.contacts ∧ r.id = r0.id := by
  cases hfp : foundPrimary snap email phoneNumber with
  | some pc =>
    rw [memContacts_eq_of_found snap email phoneNumber pc hfp] at hr
    exact ⟨r, mem_of_mem_theExisting snap email phoneNumber r hr, rfl⟩
  | none =>
    cases hex : theExisting snap email phoneNumber with
    | nil =>
      rw [memContacts, hfp, hex] at hr
      cases hr
    | cons c0 rest =>
      rw [memContacts, hfp, hex] at hr
      rcases List.mem_cons.1 hr with hmarked | hrest
      · refine ⟨c0, mem_of_mem_theExisting snap email phoneNumber c0
          (by rw [hex]; exact List.mem_cons_self c0 rest), ?_⟩
        rw [hmarked]
      · exact ⟨r, mem_of_mem_theExisting snap email phoneNumber r
          (by rw [hex]; exact List.mem_cons_of_mem c0 hrest), rfl⟩

theorem demotedIds_lt_nextId (snap : DB) (email phoneNumber : Option String)
    (hwf2 : ∀ c ∈ snap.contacts, c.id < snap.nextId) :
    ∀ x ∈ demotedIds snap email phoneNumber, x < snap.nextId := by
  intro x hx
  rw [demotedIds] at hx
  rcases List.mem_map.1 hx with ⟨r, hr, hrid⟩
  have hr1 : r ∈ multiplePrimaries snap email phoneNumber := (List.mem_filter.1 hr).1
  rw [multiplePrimaries] at hr1
  have hr2 : r ∈ memContacts snap email phoneNumber := (List.mem_filter.1 hr1).1
  rcases mem_memContacts_id snap email phoneNumber r hr2 with ⟨r0, hr0, hid⟩
  rw [← hrid, hid]
  exact hwf2 r0 hr0

/-- C5.  When at least one contact matches and the code's new-information
check fires (a truthy supplied fragment absent from the acting family's
fragment sets), exactly one contact is appended: a secondary carrying only the
fragments absent from the family (an already-present fragment is stored as
null), whose `linked_id` equals the response's `primaryContactId` (the
surviving primary), while every pre-existing row keeps its id and position. -/
theorem c5_new_secondary_created (db : DB) (now : Nat) (email phoneNumber : Option String)
    (res : IdentifyResult) (hwf : WF db)
    (h : identify db now email phoneNumber = some res)
    (hmatch : theExisting db email phoneNumber ≠ [])
    (hneed : needNewContact db email phoneNumber = true) :
    res.db.contacts.length = db.contacts.length + 1
    ∧ res.db.nextId = db.nextId + 1
    ∧ res.db.contacts.getLast? = some (newSecondary db db.nextId now email phoneNumber)
    ∧ (newSecondary db db.nextId now email phoneNumber).linkPrecedence = .secondary
    ∧ (newSecondary db db.nextId now email phoneNumber).linkedId
        = some res.response.primaryContactId
    ∧ (∀ s, email = some s → s ∈ familyEmails db email phoneNumber →
        (newSecondary db db.nextId now email phoneNumber).email = none)
    ∧ (fragNew email (familyEmails db email phoneNumber) = true →
        (newSecondary db db.nextId now email phoneNumber).email = email)
    ∧ (∀ s, phoneNumber = some s → s ∈ familyPhones db email phoneNumber →
        (newSecondary db db.nextId now email phoneNumber).phoneNumber = none)
    ∧ (fragNew phoneNumber (familyPhones db email phoneNumber) = true →
        (newSecondary db db.nextId now email phoneNumber).phoneNumber = phoneNumber)
    ∧ ∀ (i : Nat) (c c' : Contact), db.contacts[i]? = some c →
        res.db.contacts[i]? = some c' → c'.id = c.id := by
  have hres := identify_matched_eq db now email phoneNumber res h hmatch
  subst hres
  have hsecid : (newSecondary db db.nextId now email phoneNumber).id = db.nextId := rfl
  have hseccont : (demotedIds db email phoneNumber).contains
      (newSecondary db db.nextId now email phoneNumber).id = false := by
    rw [hsecid]
    cases hb : (demotedIds db email phoneNumber).contains db.nextId with
    | false => rfl
    | true =>
      exfalso
      have := demotedIds_lt_nextId db email phoneNumber hwf.2.1 db.nextId
        ((contains_iff_mem _ _).1 hb)
      omega
  refine ⟨?_, ?_, ?_, rfl, ?_, ?_, ?_, ?_, ?_, ?_⟩
  · rw [if_pos hneed, length_applyDemote, List.length_append, length_applyPromote]
    rfl
  · simp only [if_pos hneed]
  · rw [if_pos hneed, List.getLast?_eq_getElem?, length_applyDemote, applyDemote_getElem?]
    have hl : (applyPromoteWrite db email phoneNumber now db.contacts
        ++ [newSecondary db db.nextId now email phoneNumber]).length - 1
        = (applyPromoteWrite db email phoneNumber now db.contacts).length := by
      simp
    rw [hl, List.getElem?_concat_length]
    simp [demoteFun_eq_self db email phoneNumber now _ hseccont]
  · rw [assembleResponse_primaryContactId]
    exact newSecondary_linkedId_eq_final db db.nextId now email phoneNumber
  · intro s hes hmem
    rw [hes] at hmem
    have hfrag : fragNew email (familyEmails db email phoneNumber) = false := by
      rw [hes, fragNew]
      simp
      exact fun _ => hmem
    show (if fragNew email (familyEmails db email phoneNumber) then email else none) = none
    rw [if_neg (by rw [hfrag]; exact Bool.false_ne_true)]
  · intro hfrag
    show (if fragNew email (familyEmails db email phoneNumber) then email else none) = email
    rw [if_pos hfrag]
  · intro s hps hmem
    rw [hps] at hmem
    have hfrag : fragNew phoneNumber (familyPhones db email phoneNumber) = false := by
      rw [hps, fragNew]
      simp
      exact fun _ => hmem
    show (if fragNew phoneNumber (familyPhones db email phoneNumber) then phoneNumber else none)
      = none
    rw [if_neg (by rw [hfrag]; exact Bool.false_ne_true)]
  · intro hfrag
    show (if fragNew phoneNumber (familyPhones db email phoneNumber) then phoneNumber else none)
      = phoneNumber
    rw [if_pos hfrag]
  · intro i c c' hc hc'
    rw [if_pos hneed] at hc'
    rcases applyPromote_at db email phoneNumber now db.contacts i c hc with
      ⟨ca, hca, hcaid, _, _, _, _, _⟩
    have hi : i < db.contacts.length := by
      by_contra hge
      rw [List.getElem?_eq_none (Nat.le_of_not_lt hge)] at hc
      cases hc
    have hi' : i < (applyPromoteWrite db email phoneNumber now db.contacts).length := by
      rw [length_applyPromote]; exact hi
    have happ : (applyPromoteWrite db email phoneNumber now db.contacts
        ++ [newSecondary db db.nextId now email phoneNumber])[i]? = some ca := by
      rw [List.getElem?_append_left hi']
      exact hca
    rw [applyDemote_getElem?, happ] at hc'
    simp only [Option.map_some'] at hc'
    have := (Option.some.inj hc').symm
    rw [this, demoteFun_id, hcaid]

/-- Witness for C5: over `oneContactDB` the request `(a@x, 2222)` carries a new
phone; exactly one secondary is appended, carrying only the phone (the email,
already present, is stored as null), linked to the surviving primary 1. -/
theorem c5_new_secondary_created_witness :
    ((identify oneContactDB 5 (some "a@x") (some "2222")).getD default).db.contacts.getLast?
      = some (newSecondary oneContactDB oneContactDB.nextId 5 (some "a@x") (some "2222"))
    ∧ (newSecondary oneContactDB oneContactDB.nextId 5 (some "a@x") (some "2222")).linkedId
      = some (((identify oneContactDB 5 (some "a@x") (some "2222")).getD
          default).response.primaryContactId) := by
  have hmain := c5_new_secondary_created oneContactDB 5 (some "a@x") (some "2222")
    ((identify oneContactDB 5 (some "a@x") (some "2222")).getD default)
    (by refine ⟨by decide, ?_, ?_, ?_⟩ <;> decide)
    (by decide) (by decide) (by decide)
  exact ⟨hmain.2.2.1, hmain.2.2.2.2.1⟩

set_option maxHeartbeats 2000000 in
/-- C7 amended.  For a family of a primary (email `a`, created first) and one
secondary (email `b`), a request for `a` returns
`emails = [b, a]`: the response is still the deduplicated
first-occurrence list of the family's non-null emails, but family expansion
(`ORDER BY link_precedence DESC, created_at ASC`) returns the secondaries
(ascending `created_at`) *before* the primary — `'secondary' > 'primary'` as
strings — so the primary's own email comes last, not first. -/
theorem c7_amended_secondary_emails_first (a b : String)
    (ha : a ≠ "") (hb : b ≠ "") (hab : b ≠ a) :
    identify ⟨[⟨1, some a, none, none, .primary, 1, 1, none⟩,
               ⟨2, some b, none, some 1, .secondary, 2, 2, none⟩], 3⟩ 9 (some a) none
      = some ⟨⟨[⟨1, some a, none, none, .primary, 1, 1, none⟩,
                ⟨2, some b, none, some 1, .secondary, 2, 2, none⟩], 3⟩,
              ⟨1, [b, a], [], [2]⟩⟩ := by
  have haa : (a == a) = true := beq_self_eq_true a
  have hba : (b == a) = false := beq_eq_false_iff_ne.mpr hab
  have hae : (a == "") = false := beq_eq_false_iff_ne.mpr ha
  have hbe : (b == "") = false := beq_eq_false_iff_ne.mpr hb
  have hab' : (a == b) = false := beq_eq_false_iff_ne.mpr (fun h => hab h.symm)
  have hab2 : ¬ a = b := fun h => hab h.symm
  simp [identify, identifyOn, theExisting, findRelatedContacts, matchesRequest, sqlEq,
    sortRows, insertSorted, createdLT, jsTruthy, foundPrimary, actingPrimary,
    Contact.isPrimary, Contact.isSecondary, theFamily, findContactFamily, familyIds,
    familyIter, familyStep, familyNew, familyBase, linkedCond, famLT, precRank,
    familyEmails, familyPhones, jsCompact, jsSetDedup, jsSetDedupGo, fragNew,
    needNewContact, newSecondary, memContacts, multiplePrimaries, jsReduceOldest,
    oldestPrimary, demotedIds, finalPrimaryId, applyPromoteWrite, applyDemoteWrites,
    promoteFun, demoteFun, assembleResponse, respList,
    haa, hba, hae, hbe, hab', hab2, List.contains, List.filter, List.filterMap]

/-- Witness for the amended C7 at `a = a@x`, `b = b@x`. -/
theorem c7_amended_witness :
    identify ⟨[⟨1, some "a@x", none, none, .primary, 1, 1, none⟩,
               ⟨2, some "b@x", none, some 1, .secondary, 2, 2, none⟩], 3⟩ 9 (some "a@x") none
      = some ⟨⟨[⟨1, some "a@x", none, none, .primary, 1, 1, none⟩,
                ⟨2, some "b@x", none, some 1, .secondary, 2, 2, none⟩], 3⟩,
              ⟨1, ["b@x", "a@x"], [], [2]⟩⟩ :=
  c7_amended_secondary_emails_first "a@x" "b@x" (by decide) (by decide) (by decide)

set_option maxHeartbeats 2000000 in
/-- C1 amended.  On the bridging request `(A, B)` over two single-contact
primaries P1 (email `A`, created first) and P2 (phone `B`), exactly one
primary survives: P1, the earlier-created, and P2 is demoted to secondary with
`linked_id = 1`.  The response contains `A` and `B` — but `B` only via a
newly inserted secondary duplicating P2's phone (the new-information check
consults only P1's pre-merge family), and `secondaryContactIds = [3]` lists
only that new secondary, omitting the demoted P2 and its family. -/
theorem c1_amended_merge (A B : String) (hA : A ≠ "") (hB : B ≠ "") :
    identify ⟨[⟨1, some A, none, none, .primary, 1, 1, none⟩,
               ⟨2, none, some B, none, .primary, 2, 2, none⟩], 3⟩ 9 (some A) (some B)
      = some ⟨⟨[⟨1, some A, none, none, .primary, 1, 1, none⟩,
                ⟨2, none, some B, some 1, .secondary, 2, 9, none⟩,
                ⟨3, none, some B, some 1, .secondary, 9, 9, none⟩], 4⟩,
              ⟨1, [A], [B], [3]⟩⟩ := by
  have hAA : (A == A) = true := beq_self_eq_true A
  have hBB : (B == B) = true := beq_self_eq_true B
  have hAe : (A == "") = false := beq_eq_false_iff_ne.mpr hA
  have hBe : (B == "") = false := beq_eq_false_iff_ne.mpr hB
  simp [identify, identifyOn, theExisting, findRelatedContacts, matchesRequest, sqlEq,
    sortRows, insertSorted, createdLT, jsTruthy, foundPrimary, actingPrimary,
    Contact.isPrimary, Contact.isSecondary, theFamily, findContactFamily, familyIds,
    familyIter, familyStep, familyNew, familyBase, linkedCond, famLT, precRank,
    familyEmails, familyPhones, jsCompact, jsSetDedup, jsSetDedupGo, fragNew,
    needNewContact, newSecondary, memContacts, multiplePrimaries, jsReduceOldest,
    oldestPrimary, demotedIds, finalPrimaryId, applyPromoteWrite, applyDemoteWrites,
    promoteFun, demoteFun, assembleResponse, respList,
    hAA, hBB, hAe, hBe, List.contains, List.filter, List.filterMap]

/-- Witness for the amended C1 at `A = a@x`, `B = 111`. -/
theorem c1_amended_witness :
    identify ⟨[⟨1, some "a@x", none, none, .primary, 1, 1, none⟩,
               ⟨2, none, some "111", none, .primary, 2, 2, none⟩], 3⟩ 9
        (some "a@x") (some "111")
      = some ⟨⟨[⟨1, some "a@x", none, none, .primary, 1, 1, none⟩,
                ⟨2, none, some "111", some 1, .secondary, 2, 9, none⟩,
                ⟨3, none, some "111", some 1, .secondary, 9, 9, none⟩], 4⟩,
              ⟨1, ["a@x"], ["111"], [3]⟩⟩ :=
  c1_amended_merge "a@x" "111" (by decide) (by decide)

set_option maxHeartbeats 2000000 in
/-- C8 amended.  The SQL and Firebase implementations are not behaviourally
equivalent in general (see the counterexample); they do agree on the
fresh-identity path: on empty stores, a request carrying a fresh non-empty
email and phone makes both create exactly one primary holding the supplied
fragments and answer the same response. -/
theorem c8_amended_fresh_agreement (e p uid : String) (he : e ≠ "") (hp : p ≠ "") :
    identify ⟨[], 1⟩ 7 (some e) (some p)
      = some ⟨⟨[⟨1, some e, some p, none, .primary, 7, 7, none⟩], 2⟩, ⟨1, [e], [p], []⟩⟩
    ∧ fbReconcile ⟨[], 1⟩ 7 (some e) (some p) uid
      = some (⟨[⟨1, some e, some p, none, .primary, uid, 7, 7⟩], 2⟩, ⟨1, [e], [p], []⟩) := by
  have hee : (e == "") = false := beq_eq_false_iff_ne.mpr he
  have hpe : (p == "") = false := beq_eq_false_iff_ne.mpr hp
  have huu : (uid == uid) = true := beq_self_eq_true uid
  constructor
  · simp [identify, identifyOn, theExisting, findRelatedContacts, matchesRequest, sqlEq,
      sortRows, insertSorted, createdLT, jsTruthy, freshContact, respList,
      hee, hpe, List.filter]
  · simp [fbReconcile, fbFindRelatedContacts, fbFindRelatedContacts.fbDedupById,
      fbGetContactsByUser, fbCreatedLT, sortRows, insertSorted, jsTruthy,
      FirebaseContact.isPrimary, FirebaseContact.isSecondary, jsCompact, jsSetDedup,
      jsSetDedupGo, hee, hpe, huu, List.filter, List.filterMap, List.contains]

/-- Witness for the amended C8 at `e = a@x`, `p = 111`, owner `u1`. -/
theorem c8_amended_witness :
    identify ⟨[], 1⟩ 7 (some "a@x") (some "111")
      = some ⟨⟨[⟨1, some "a@x", some "111", none, .primary, 7, 7, none⟩], 2⟩,
              ⟨1, ["a@x"], ["111"], []⟩⟩
    ∧ fbReconcile ⟨[], 1⟩ 7 (some "a@x") (some "111") "u1"
      = some (⟨[⟨1, some "a@x", some "111", none, .primary, "u1", 7, 7⟩], 2⟩,
              ⟨1, ["a@x"], ["111"], []⟩) :=
  c8_amended_fresh_agreement "a@x" "111" "u1" (by decide) (by decide)

/-! Machinery for the idempotence theorem (C6): structure of the store after a
successful request. -/

theorem identify_some_valid (db : DB) (now : Nat) (email phoneNumber : Option String)
    (res : IdentifyResult) (h : identify db now email phoneNumber = some res) :
    jsTruthy email = true ∨ jsTruthy phoneNumber = true := by
  rw [identify, identifyOn] at h
  by_cases hval : (!(jsTruthy email) && !(jsTruthy phoneNumber)) = true
  · rw [if_pos hval] at h; cases h
  · cases he : jsTruthy email with
    | true => exact Or.inl rfl
    | false =>
      cases hp : jsTruthy phoneNumber with
      | true => exact Or.inr rfl
      | false => exact absurd (by rw [he, hp]; rfl) hval

theorem rows_eq_of_id (l : List Contact) (hn : (l.map (·.id)).Nodup) (a b : Contact)
    (ha : a ∈ l) (hb : b ∈ l) (hid : a.id = b.id) : a = b :=
  List.inj_on_of_nodup_map hn ha hb hid

theorem promoteFun_id (snap : DB) (email phoneNumber : Option String) (now : Nat)
    (c : Contact) : (promoteFun snap email phoneNumber now c).id = c.id := by
  rw [promoteFun]
  by_cases hc : (c.id == (actingPrimary snap email phoneNumber).id) = true
  · rw [if_pos hc]
  · rw [if_neg hc]

theorem ids_applyPromote (snap : DB) (email phoneNumber : Option String) (now : Nat)
    (l : List Contact) :
    (applyPromoteWrite snap email phoneNumber now l).map (·.id) = l.map (·.id) := by
  rw [applyPromoteWrite]
  by_cases hb : (foundPrimary snap email phoneNumber).isNone = true
  · rw [if_pos hb, List.map_map]
    exact List.map_congr_left (fun c _ => promoteFun_id snap email phoneNumber now c)
  · rw [if_neg hb]

theorem ids_applyDemote (snap : DB) (email phoneNumber : Option String) (now : Nat)
    (l : List Contact) :
    (applyDemoteWrites snap email phoneNumber now l).map (·.id) = l.map (·.id) := by
  rw [applyDemoteWrites]
  by_cases hb : (multiplePrimaries snap email phoneNumber).length > 1
  · rw [if_pos hb, List.map_map]
    exact List.map_congr_left (fun c _ => demoteFun_id snap email phoneNumber now c)
  · rw [if_neg hb]

/-- After a successful request on a well-formed store, row ids are still
distinct and still below the new `SERIAL` counter. -/
theorem post_wf_ids (db : DB) (now : Nat) (email phoneNumber : Option String)
    (res : IdentifyResult) (hwf : WF db) (h : identify db now email phoneNumber = some res) :
    (res.db.contacts.map (·.id)).Nodup := by
  have hfresh : ∀ x : Contact, x.id = db.nextId →
      ((db.contacts ++ [x]).map (·.id)).Nodup := by
    intro x hxid
    rw [List.map_append, List.nodup_append]
    refine ⟨hwf.1, List.nodup_singleton _, ?_⟩
    intro y hy hz
    simp only [List.map_cons, List.map_nil, List.mem_singleton] at hz
    rcases List.mem_map.1 hy with ⟨c, hc, hcid⟩
    have := hwf.2.1 c hc
    rw [hcid] at this
    rw [hz, hxid] at this
    exact absurd this (by show ¬ db.nextId < db.nextId; omega)
  cases hex : theExisting db email phoneNumber with
  | nil =>
    have hres := identify_fresh_eq db now email phoneNumber res h hex
    rw [hres]
    exact hfresh _ rfl
  | cons c0 rest =>
    have hres := identify_matched_eq db now email phoneNumber res h (by rw [hex]; simp)
    rw [hres]
    show ((applyDemoteWrites db email phoneNumber now _).map (·.id)).Nodup
    rw [ids_applyDemote]
    by_cases hneed : needNewContact db email phoneNumber = true
    · rw [if_pos hneed, List.map_append, ids_applyPromote, ← List.map_append]
      exact hfresh _ rfl
    · rw [if_neg hneed, ids_applyPromote]
      exact hwf.1

/-- Row correspondence: every pre-existing row survives with the same id,
identity fragments and deletion status; its `linked_id` is unchanged unless it
was `NULL` (a demoted primary, by well-formedness). -/
theorem post_row_correspondence (db : DB) (now : Nat) (email phoneNumber : Option String)
    (res : IdentifyResult) (hwf : WF db) (h : identify db now email phoneNumber = some res) :
    ∀ c ∈ db.contacts, ∃ c', c' ∈ res.db.contacts ∧ c'.id = c.id
      ∧ c'.deletedAt = c.deletedAt ∧ c'.email = c.email ∧ c'.phoneNumber = c.phoneNumber
      ∧ (c.linkedId = none ∨ c'.linkedId = c.linkedId) := by
  intro c hc
  cases hex : theExisting db email phoneNumber with
  | nil =>
    have hres := identify_fresh_eq db now email phoneNumber res h hex
    rw [hres]
    exact ⟨c, List.mem_append_left _ hc, rfl, rfl, rfl, rfl, Or.inr rfl⟩
  | cons c0 rest =>
    have hres := identify_matched_eq db now email phoneNumber res h (by rw [hex]; simp)
    rw [hres]
    -- step 1: through the promotion write
    have hstep1 : ∃ ca, ca ∈ applyPromoteWrite db email phoneNumber now db.contacts
        ∧ ca.id = c.id ∧ ca.deletedAt = c.deletedAt ∧ ca.email = c.email
        ∧ ca.phoneNumber = c.phoneNumber ∧ ca.linkedId = c.linkedId
        ∧ ca.linkPrecedence = c.linkPrecedence ∨
        (ca ∈ applyPromoteWrite db email phoneNumber now db.contacts
        ∧ ca.id = c.id ∧ ca.deletedAt = c.deletedAt ∧ ca.email = c.email
        ∧ ca.phoneNumber = c.phoneNumber ∧ ca.linkedId = c.linkedId) := by
      rw [applyPromoteWrite]
      by_cases hb : (foundPrimary db email phoneNumber).isNone = true
      · rw [if_pos hb]
        refine ⟨promoteFun db email phoneNumber now c, Or.inr ⟨List.mem_map_of_mem _ hc, ?_⟩⟩
        rw [promoteFun]
        by_cases hcc : (c.id == (actingPrimary db email phoneNumber).id) = true
        · rw [if_pos hcc]; exact ⟨rfl, rfl, rfl, rfl, rfl⟩
        · rw [if_neg hcc]; exact ⟨rfl, rfl, rfl, rfl, rfl⟩
      · rw [if_neg hb]
        exact ⟨c, Or.inr ⟨hc, rfl, rfl, rfl, rfl, rfl⟩⟩
    rcases hstep1 with ⟨ca, hca⟩
    have hca' : ca ∈ applyPromoteWrite db email phoneNumber now db.contacts
        ∧ ca.id = c.id ∧ ca.deletedAt = c.deletedAt ∧ ca.email = c.email
        ∧ ca.phoneNumber = c.phoneNumber ∧ ca.linkedId = c.linkedId := by
      rcases hca with h1 | h2
      · exact ⟨h1.1, h1.2.1, h1.2.2.1, h1.2.2.2.1, h1.2.2.2.2.1, h1.2.2.2.2.2.1⟩
      · exact h2
    -- step 2: into the extended list
    have hmemL : ca ∈ (if needNewContact db email phoneNumber then
        applyPromoteWrite db email phoneNumber now db.contacts
          ++ [newSecondary db db.nextId now email phoneNumber]
        else applyPromoteWrite db email phoneNumber now db.contacts) := by
      by_cases hneed : needNewContact db email phoneNumber = true
      · rw [if_pos hneed]; exact List.mem_append_left _ hca'.1
      · rw [if_neg hneed]; exact hca'.1
    -- step 3: through the demotion writes
    refine ⟨demoteFun db email phoneNumber now ca, ?_, ?_, ?_, ?_, ?_, ?_⟩
    · show _ ∈ applyDemoteWrites db email phoneNumber now _
      rw [applyDemoteWrites]
      by_cases hb : (multiplePrimaries db email phoneNumber).length > 1
      · rw [if_pos hb]
        exact List.mem_map_of_mem _ hmemL
      · rw [if_neg hb]
        rw [demoteFun_eq_self db email phoneNumber now ca
          (by rw [demotedIds_nil_of_not_gt db email phoneNumber hb]; rfl)]
        exact hmemL
    · rw [demoteFun_id]; exact hca'.2.1
    · rw [demoteFun]
      by_cases hcc : (demotedIds db email phoneNumber).contains ca.id = true
      · rw [if_pos hcc]; exact hca'.2.2.1
      · rw [if_neg hcc]; exact hca'.2.2.1
    · rw [demoteFun]
      by_cases hcc : (demotedIds db email phoneNumber).contains ca.id = true
      · rw [if_pos hcc]; exact hca'.2.2.2.1
      · rw [if_neg hcc]; exact hca'.2.2.2.1
    · rw [demoteFun]
      by_cases hcc : (demotedIds db email phoneNumber).contains ca.id = true
      · rw [if_pos hcc]; exact hca'.2.2.2.2.1
      · rw [if_neg hcc]; exact hca'.2.2.2.2.1
    · by_cases hcc : (demotedIds db email phoneNumber).contains ca.id = true
      · left
        -- `ca` is a demoted matched primary: by well-formedness its link was NULL
        have hmem : ca.id ∈ demotedIds db email phoneNumber := (contains_iff_mem _ _).1 hcc
        rw [demotedIds] at hmem
        rcases List.mem_map.1 hmem with ⟨r, hr, hrid⟩
        have hr1 : r ∈ multiplePrimaries db email phoneNumber := (List.mem_filter.1 hr).1
        have hprim : Contact.isPrimary r = true := by
          rw [multiplePrimaries] at hr1
          exact (List.mem_filter.1 hr1).2
        have hnogt : (multiplePrimaries db email phoneNumber).length > 1 ∨ True := Or.inr trivial
        -- identify the demoted row with `c` through Nodup ids
        cases hfp : foundPrimary db email phoneNumber with
        | some pc =>
          have hrmem : r ∈ db.contacts := by
            rw [multiplePrimaries, memContacts_eq_of_found db email phoneNumber pc hfp] at hr1
            exact mem_of_mem_theExisting db email phoneNumber r (List.mem_filter.1 hr1).1
          have hrc : r = c := rows_eq_of_id db.contacts hwf.1 r c hrmem hc
            (by rw [hrid, hca'.2.1])
          have : c.linkPrecedence = .primary := by
            rw [← hrc]
            cases hlp : r.linkPrecedence with
            | primary => rfl
            | secondary => rw [Contact.isPrimary, hlp] at hprim; cases hprim
          exact hwf.2.2.1 c hc this
        | none =>
          exfalso
          cases hex2 : theExisting db email phoneNumber with
          | nil => rw [hex2] at hex; cases hex
          | cons d0 drest =>
            have hmp := multiplePrimaries_promote_case db email phoneNumber hfp d0 drest hex2
            have : demotedIds db email phoneNumber = [] :=
              demotedIds_nil_of_not_gt db email phoneNumber (by rw [hmp]; simp)
            rw [this] at hcc
            simp at hcc
      · right
        rw [demoteFun, if_neg hcc]
        exact hca'.2.2.2.2.2

theorem sqlEq_self_of_truthy (x : Option String) (hx : jsTruthy x = true) :
    sqlEq x x = true := by
  cases x with
  | none => cases hx
  | some s => exact beq_self_eq_true s

theorem matches_deletedAt_none (email phoneNumber : Option String) (c : Contact)
    (h : matchesRequest email phoneNumber c = true) : c.deletedAt = none := by
  rw [matchesRequest, Bool.and_eq_true] at h
  exact Option.isNone_iff_eq_none.1 h.2

theorem filterMatches_nil_of_existing_nil (db : DB) (email phoneNumber : Option String)
    (hex : theExisting db email phoneNumber = []) :
    db.contacts.filter (matchesRequest email phoneNumber) = [] := by
  rw [theExisting, findRelatedContacts] at hex
  exact (sortRows_eq_nil_iff _ _).1 hex

theorem actingPrimary_of_found (snap : DB) (email phoneNumber : Option String) (pc : Contact)
    (hfp : foundPrimary snap email phoneNumber = some pc) :
    actingPrimary snap email phoneNumber = pc := by
  rw [actingPrimary, hfp]
  rfl

theorem actingPrimary_of_none_cons (snap : DB) (email phoneNumber : Option String)
    (c0 : Contact) (rest : List Contact)
    (hfp : foundPrimary snap email phoneNumber = none)
    (hex : theExisting snap email phoneNumber = c0 :: rest) :
    actingPrimary snap email phoneNumber = c0 := by
  rw [actingPrimary, hfp, hex]
  rfl

theorem mem_demotedIds_iff (snap : DB) (email phoneNumber : Option String) (x : Nat) :
    x ∈ demotedIds snap email phoneNumber ↔
    ∃ r ∈ multiplePrimaries snap email phoneNumber,
      (r.id == (oldestPrimary snap email phoneNumber).id) = false ∧ r.id = x := by
  rw [demotedIds]
  constructor
  · intro hx
    rcases List.mem_map.1 hx with ⟨r, hr, hrid⟩
    rw [List.mem_filter] at hr
    refine ⟨r, hr.1, ?_, hrid⟩
    have := hr.2
    rwa [Bool.not_eq_true'] at this
  · intro ⟨r, hr, hbeq, hrid⟩
    apply List.mem_map.2
    refine ⟨r, List.mem_filter.2 ⟨hr, ?_⟩, hrid⟩
    rw [Bool.not_eq_true']
    exact hbeq

theorem acting_not_demoted (snap : DB) (email phoneNumber : Option String) :
    (demotedIds snap email phoneNumber).contains (actingPrimary snap email phoneNumber).id
      = false := by
  by_cases hgt : (multiplePrimaries snap email phoneNumber).length > 1
  · cases hb : (demotedIds snap email phoneNumber).contains
        (actingPrimary snap email phoneNumber).id with
    | false => rfl
    | true =>
      exfalso
      rcases (mem_demotedIds_iff snap email phoneNumber _).1
        ((contains_iff_mem _ _).1 hb) with ⟨r, _, hbeq, hrid⟩
      have hacting : (actingPrimary snap email phoneNumber).id
          = (oldestPrimary snap email phoneNumber).id := by
        have := acting_id_eq_finalPrimaryId snap email phoneNumber
        rwa [finalPrimaryId, if_pos hgt] at this
      rw [hrid, hacting] at hbeq
      rw [beq_self_eq_true] at hbeq
      cases hbeq
  · rw [demotedIds_nil_of_not_gt snap email phoneNumber hgt]
    rfl

theorem foundPrimary_some_of_gt (snap : DB) (email phoneNumber : Option String)
    (hgt : (multiplePrimaries snap email phoneNumber).length > 1) :
    ∃ pc, foundPrimary snap email phoneNumber = some pc := by
  cases hfp : foundPrimary snap email phoneNumber with
  | some pc => exact ⟨pc, rfl⟩
  | none =>
    exfalso
    cases hex : theExisting snap email phoneNumber with
    | nil =>
      rw [multiplePrimaries, memContacts, hfp, hex] at hgt
      simp at hgt
    | cons c0 rest =>
      rw [multiplePrimaries_promote_case snap email phoneNumber hfp c0 rest hex] at hgt
      simp at hgt

theorem applyPromote_of_found (snap : DB) (email phoneNumber : Option String) (now : Nat)
    (l : List Contact) (pc : Contact) (hfp : foundPrimary snap email phoneNumber = some pc) :
    applyPromoteWrite snap email phoneNumber now l = l := by
  rw [applyPromoteWrite, if_neg]
  rw [hfp]
  exact fun hcontra => by cases hcontra

theorem mem_theExisting_of_matches (snap : DB) (email phoneNumber : Option String)
    (c : Contact) (hc : c ∈ snap.contacts)
    (hm : matchesRequest email phoneNumber c = true) :
    c ∈ theExisting snap email phoneNumber := by
  rw [theExisting, findRelatedContacts, mem_sortRows]
  exact List.mem_filter.2 ⟨hc, hm⟩

theorem newSecondary_isSecondary (snap : DB) (newId now : Nat)
    (email phoneNumber : Option String) :
    (newSecondary snap newId now email phoneNumber).isPrimary = false := rfl

/-- After a successful request on a well-formed store there is exactly one
matching primary row, and its id is the response's `primaryContactId`. -/
theorem post_primary (db : DB) (now : Nat) (email phoneNumber : Option String)
    (res : IdentifyResult) (_hwf : WF db) (h : identify db now email phoneNumber = some res) :
    (∃ cstar, cstar ∈ res.db.contacts ∧ matchesRequest email phoneNumber cstar = true
      ∧ cstar.isPrimary = true ∧ cstar.id = res.response.primaryContactId)
    ∧ ∀ c' ∈ res.db.contacts, matchesRequest email phoneNumber c' = true →
        c'.isPrimary = true → c'.id = res.response.primaryContactId := by
  cases hex : theExisting db email phoneNumber with
  | nil =>
    have hres := identify_fresh_eq db now email phoneNumber res h hex
    have hfil := filterMatches_nil_of_existing_nil db email phoneNumber hex
    rw [hres]
    constructor
    · refine ⟨freshContact db.nextId now email phoneNumber,
        List.mem_append_right _ (List.mem_singleton_self _), ?_, rfl, rfl⟩
      rw [matchesRequest]
      rcases identify_some_valid db now email phoneNumber res h with hv | hv
      · rw [show (freshContact db.nextId now email phoneNumber).email = email from rfl]
        rw [sqlEq_self_of_truthy email hv]
        rfl
      · rw [show (freshContact db.nextId now email phoneNumber).phoneNumber
            = phoneNumber from rfl]
        rw [sqlEq_self_of_truthy phoneNumber hv, Bool.or_true]
        rfl
    · intro c' hc' hm hp
      rcases List.mem_append.1 hc' with hold | hnew
      · exfalso
        have : c' ∈ db.contacts.filter (matchesRequest email phoneNumber) :=
          List.mem_filter.2 ⟨hold, hm⟩
        rw [hfil] at this
        cases this
      · rw [List.mem_singleton.1 hnew]
        rfl
  | cons c0 rest =>
    have hne : theExisting db email phoneNumber ≠ [] := by rw [hex]; simp
    have hres := identify_matched_eq db now email phoneNumber res h hne
    have hrid : res.response.primaryContactId = finalPrimaryId db email phoneNumber := by
      rw [hres]
      rfl
    have hrows : res.db.contacts = applyDemoteWrites db email phoneNumber now
        (if needNewContact db email phoneNumber then
          applyPromoteWrite db email phoneNumber now db.contacts
            ++ [newSecondary db db.nextId now email phoneNumber]
         else applyPromoteWrite db email phoneNumber now db.contacts) := by
      rw [hres]
    -- membership in the extended list, before demotion
    have hmemL : ∀ x, x ∈ (if needNewContact db email phoneNumber then
        applyPromoteWrite db email phoneNumber now db.contacts
          ++ [newSecondary db db.nextId now email phoneNumber]
        else applyPromoteWrite db email phoneNumber now db.contacts) ↔
        (x ∈ applyPromoteWrite db email phoneNumber now db.contacts
          ∨ (needNewContact db email phoneNumber = true
             ∧ x = newSecondary db db.nextId now email phoneNumber)) := by
      intro x
      by_cases hneed : needNewContact db email phoneNumber = true
      · rw [if_pos hneed, List.mem_append, List.mem_singleton]
        constructor
        · rintro (hx | hx)
          exacts [Or.inl hx, Or.inr ⟨hneed, hx⟩]
        · rintro (hx | ⟨_, hx⟩)
          exacts [Or.inl hx, Or.inr hx]
      · rw [if_neg hneed]
        constructor
        · exact fun hx => Or.inl hx
        · rintro (hx | ⟨hcontra, _⟩)
          · exact hx
          · exact absurd hcontra hneed
    constructor
    · -- existence of the surviving primary row
      cases hfp : foundPrimary db email phoneNumber with
      | some pc =>
        have hpcmem : pc ∈ theExisting db email phoneNumber :=
          List.mem_of_find?_eq_some hfp
        have hpcdb : pc ∈ db.contacts := mem_of_mem_theExisting db email phoneNumber pc hpcmem
        have hpcmatch := matches_of_mem_theExisting db email phoneNumber pc hpcmem
        have hpcprim : pc.isPrimary = true := List.find?_some hfp
        have hpcid : pc.id = finalPrimaryId db email phoneNumber := by
          rw [← actingPrimary_of_found db email phoneNumber pc hfp]
          exact acting_id_eq_finalPrimaryId db email phoneNumber
        have hpcL : pc ∈ (if needNewContact db email phoneNumber then
            applyPromoteWrite db email phoneNumber now db.contacts
              ++ [newSecondary db db.nextId now email phoneNumber]
            else applyPromoteWrite db email phoneNumber now db.contacts) := by
          rw [hmemL]
          left
          rw [applyPromote_of_found db email phoneNumber now db.contacts pc hfp]
          exact hpcdb
        have hpcnotdem : (demotedIds db email phoneNumber).contains pc.id = false := by
          rw [← actingPrimary_of_found db email phoneNumber pc hfp]
          exact acting_not_demoted db email phoneNumber
        refine ⟨pc, ?_, hpcmatch, hpcprim, by rw [hpcid, hrid]⟩
        rw [hrows, applyDemoteWrites]
        by_cases hgt : (multiplePrimaries db email phoneNumber).length > 1
        · rw [if_pos hgt]
          have : demoteFun db email phoneNumber now pc = pc :=
            demoteFun_eq_self db email phoneNumber now pc hpcnotdem
          rw [← this]
          exact List.mem_map_of_mem _ hpcL
        · rw [if_neg hgt]
          exact hpcL
      | none =>
        have hacting := actingPrimary_of_none_cons db email phoneNumber c0 rest hfp hex
        have hc0mem : c0 ∈ theExisting db email phoneNumber := by
          rw [hex]; exact List.mem_cons_self c0 rest
        have hc0db : c0 ∈ db.contacts := mem_of_mem_theExisting db email phoneNumber c0 hc0mem
        have hc0match := matches_of_mem_theExisting db email phoneNumber c0 hc0mem
        have hw : promoteFun db email phoneNumber now c0
            = { c0 with linkPrecedence := .primary, updatedAt := now } := by
          rw [promoteFun, if_pos]
          rw [hacting]
          exact beq_self_eq_true c0.id
        have hnogt : ¬ (multiplePrimaries db email phoneNumber).length > 1 := by
          rw [multiplePrimaries_promote_case db email phoneNumber hfp c0 rest hex]
          simp
        have hwL : promoteFun db email phoneNumber now c0
            ∈ (if needNewContact db email phoneNumber then
              applyPromoteWrite db email phoneNumber now db.contacts
                ++ [newSecondary db db.nextId now email phoneNumber]
              else applyPromoteWrite db email phoneNumber now db.contacts) := by
          rw [hmemL]
          left
          rw [applyPromoteWrite, if_pos (by rw [hfp]; rfl)]
          exact List.mem_map_of_mem _ hc0db
        refine ⟨promoteFun db email phoneNumber now c0, ?_, ?_, ?_, ?_⟩
        · rw [hrows, applyDemoteWrites, if_neg hnogt]
          exact hwL
        · rw [hw, matchesRequest] at *
          exact hc0match
        · rw [hw]
          rfl
        · rw [hw]
          show c0.id = res.response.primaryContactId
          rw [hrid, finalPrimaryId, if_neg hnogt, hacting]
    · -- uniqueness
      intro c' hc' hm hp
      rw [hrows, applyDemoteWrites] at hc'
      by_cases hgt : (multiplePrimaries db email phoneNumber).length > 1
      · rw [if_pos hgt] at hc'
        rcases List.mem_map.1 hc' with ⟨x, hxL, hxc⟩
        by_cases hdem : (demotedIds db email phoneNumber).contains x.id = true
        · exfalso
          rw [← hxc, demoteFun, if_pos hdem] at hp
          cases hp
        · have hxc' : c' = x := by
            rw [← hxc, demoteFun_eq_self db email phoneNumber now x
              (by rw [Bool.not_eq_true] at hdem; exact hdem)]
          rw [hxc'] at hm hp ⊢
          rcases (hmemL x).1 hxL with hxAP | ⟨_, hxsec⟩
          · rcases foundPrimary_some_of_gt db email phoneNumber hgt with ⟨pc, hfp⟩
            rw [applyPromote_of_found db email phoneNumber now db.contacts pc hfp] at hxAP
            have hxex : x ∈ theExisting db email phoneNumber :=
              mem_theExisting_of_matches db email phoneNumber x hxAP hm
            have hxmp : x ∈ multiplePrimaries db email phoneNumber := by
              rw [multiplePrimaries, memContacts_eq_of_found db email phoneNumber pc hfp]
              exact List.mem_filter.2 ⟨hxex, hp⟩
            have hbeq : (x.id == (oldestPrimary db email phoneNumber).id) = true := by
              cases hb : (x.id == (oldestPrimary db email phoneNumber).id) with
              | true => rfl
              | false =>
                exfalso
                have : x.id ∈ demotedIds db email phoneNumber :=
                  (mem_demotedIds_iff db email phoneNumber x.id).2 ⟨x, hxmp, hb, rfl⟩
                rw [(contains_iff_mem _ _).2 this] at hdem
                exact hdem rfl
            rw [hrid, finalPrimaryId, if_pos hgt]
            exact beq_iff_eq.1 hbeq
          · exfalso
            rw [hxsec] at hp
            rw [newSecondary_isSecondary] at hp
            cases hp
      · rw [if_neg hgt] at hc'
        rcases (hmemL c').1 hc' with hcAP | ⟨_, hcsec⟩
        · cases hfp : foundPrimary db email phoneNumber with
          | some pc =>
            rw [applyPromote_of_found db email phoneNumber now db.contacts pc hfp] at hcAP
            have hcex : c' ∈ theExisting db email phoneNumber :=
              mem_theExisting_of_matches db email phoneNumber c' hcAP hm
            have hcmp : c' ∈ multiplePrimaries db email phoneNumber := by
              rw [multiplePrimaries, memContacts_eq_of_found db email phoneNumber pc hfp]
              exact List.mem_filter.2 ⟨hcex, hp⟩
            have hmp1 : multiplePrimaries db email phoneNumber = [c'] := by
              cases hmp : multiplePrimaries db email phoneNumber with
              | nil => rw [hmp] at hcmp; cases hcmp
              | cons a t =>
                cases t with
                | nil =>
                  rw [hmp, List.mem_singleton] at hcmp
                  rw [hcmp]
                | cons b u =>
                  exfalso
                  apply hgt
                  rw [hmp]
                  simp
            have hfind : foundPrimary db email phoneNumber = some c' := by
              rw [foundPrimary, find?_eq_head?_filter]
              have : (theExisting db email phoneNumber).filter Contact.isPrimary
                  = multiplePrimaries db email phoneNumber := by
                rw [multiplePrimaries, memContacts_eq_of_found db email phoneNumber pc hfp]
              rw [this, hmp1]
              rfl
            rw [hfp] at hfind
            have hpc : pc = c' := Option.some.inj hfind
            rw [hrid, finalPrimaryId, if_neg hgt,
              actingPrimary_of_found db email phoneNumber pc hfp, hpc]
          | none =>
            rw [applyPromoteWrite, if_pos (by rw [hfp]; rfl)] at hcAP
            rcases List.mem_map.1 hcAP with ⟨y, hy, hyc⟩
            rw [promoteFun] at hyc
            by_cases hyid : (y.id == (actingPrimary db email phoneNumber).id) = true
            · rw [if_pos hyid] at hyc
              rw [hrid, finalPrimaryId, if_neg hgt, ← hyc]
              show y.id = _
              exact beq_iff_eq.1 hyid
            · exfalso
              rw [if_neg hyid] at hyc
              subst hyc
              have hyex : y ∈ theExisting db email phoneNumber :=
                mem_theExisting_of_matches db email phoneNumber y hy hm
              have := foundPrimary_none_all db email phoneNumber hfp y hyex
              rw [hp] at this
              cases this
        · exfalso
          rw [hcsec] at hp
          rw [newSecondary_isSecondary] at hp
          cases hp

theorem mem_theFamily_iff (snap : DB) (email phoneNumber : Option String) (c : Contact) :
    c ∈ theFamily snap email phoneNumber ↔
    c ∈ snap.contacts
      ∧ c.id ∈ familyIds snap (actingPrimary snap email phoneNumber).id
      ∧ c.deletedAt = none := by
  rw [theFamily, findContactFamily, mem_sortRows, List.mem_filter]
  constructor
  · intro ⟨hc, hcond⟩
    rw [Bool.and_eq_true] at hcond
    exact ⟨hc, (contains_iff_mem _ _).1 hcond.1, Option.isNone_iff_eq_none.1 hcond.2⟩
  · intro ⟨hc, hid, hdel⟩
    refine ⟨hc, ?_⟩
    rw [Bool.and_eq_true]
    exact ⟨(contains_iff_mem _ _).2 hid, by rw [hdel]; rfl⟩

theorem mem_familyEmails_iff (snap : DB) (email phoneNumber : Option String) (s : String) :
    s ∈ familyEmails snap email phoneNumber ↔
    (∃ c ∈ theFamily snap email phoneNumber, c.email = some s) ∧ ¬ (s = "") := by
  rw [familyEmails, mem_jsCompact]
  constructor
  · intro ⟨hmem, hs⟩
    rcases List.mem_map.1 hmem with ⟨c, hc, hcs⟩
    exact ⟨⟨c, hc, hcs⟩, hs⟩
  · intro ⟨⟨c, hc, hcs⟩, hs⟩
    exact ⟨List.mem_map.2 ⟨c, hc, hcs⟩, hs⟩

theorem mem_familyPhones_iff (snap : DB) (email phoneNumber : Option String) (s : String) :
    s ∈ familyPhones snap email phoneNumber ↔
    (∃ c ∈ theFamily snap email phoneNumber, c.phoneNumber = some s) ∧ ¬ (s = "") := by
  rw [familyPhones, mem_jsCompact]
  constructor
  · intro ⟨hmem, hs⟩
    rcases List.mem_map.1 hmem with ⟨c, hc, hcs⟩
    exact ⟨⟨c, hc, hcs⟩, hs⟩
  · intro ⟨⟨c, hc, hcs⟩, hs⟩
    exact ⟨List.mem_map.2 ⟨c, hc, hcs⟩, hs⟩

/-- The new secondary row survives the demotion loop untouched (its fresh
`SERIAL` id is never among the demoted ids). -/
theorem newSecondary_not_demoted (db : DB) (now : Nat) (email phoneNumber : Option String)
    (hwf2 : ∀ c ∈ db.contacts, c.id < db.nextId) :
    (demotedIds db email phoneNumber).contains
      (newSecondary db db.nextId now email phoneNumber).id = false := by
  cases hb : (demotedIds db email phoneNumber).contains
      (newSecondary db db.nextId now email phoneNumber).id with
  | false => rfl
  | true =>
    exfalso
    have := demotedIds_lt_nextId db email phoneNumber hwf2 _ ((contains_iff_mem _ _).1 hb)
    have hid : (newSecondary db db.nextId now email phoneNumber).id = db.nextId := rfl
    rw [hid] at this
    omega

/-- The new secondary row is a member of the post-state. -/
theorem newSecondary_mem_post (db : DB) (now : Nat) (email phoneNumber : Option String)
    (res : IdentifyResult) (hwf : WF db) (h : identify db now email phoneNumber = some res)
    (hmatch : theExisting db email phoneNumber ≠ [])
    (hneed : needNewContact db email phoneNumber = true) :
    newSecondary db db.nextId now email phoneNumber ∈ res.db.contacts := by
  have hres := identify_matched_eq db now email phoneNumber res h hmatch
  rw [hres]
  show _ ∈ applyDemoteWrites db email phoneNumber now _
  have hmemL : newSecondary db db.nextId now email phoneNumber
      ∈ (if needNewContact db email phoneNumber then
        applyPromoteWrite db email phoneNumber now db.contacts
          ++ [newSecondary db db.nextId now email phoneNumber]
        else applyPromoteWrite db email phoneNumber now db.contacts) := by
    rw [if_pos hneed]
    exact List.mem_append_right _ (List.mem_singleton_self _)
  rw [applyDemoteWrites]
  by_cases hgt : (multiplePrimaries db email phoneNumber).length > 1
  · rw [if_pos hgt]
    have hmm := List.mem_map_of_mem (demoteFun db email phoneNumber now) hmemL
    rwa [demoteFun_eq_self db email phoneNumber now _
      (newSecondary_not_demoted db now email phoneNumber hwf.2.1)] at hmm
  · rw [if_neg hgt]
    exact hmemL

/-- After a successful request, a truthy supplied email is carried by some
non-deleted row of the surviving primary's family (in the post-state). -/
theorem post_email_present (db : DB) (now : Nat) (email phoneNumber : Option String)
    (res : IdentifyResult) (hwf : WF db) (h : identify db now email phoneNumber = some res) :
    ∀ s, email = some s → ¬ (s = "") →
    ∃ c', c' ∈ res.db.contacts ∧ c'.deletedAt = none ∧ c'.email = some s
      ∧ c'.id ∈ familyIds res.db res.response.primaryContactId := by
  intro s hes hs
  cases hex : theExisting db email phoneNumber with
  | nil =>
    have hres := identify_fresh_eq db now email phoneNumber res h hex
    refine ⟨freshContact db.nextId now email phoneNumber, ?_, rfl, ?_, ?_⟩
    · rw [hres]
      exact List.mem_append_right _ (List.mem_singleton_self _)
    · rw [show (freshContact db.nextId now email phoneNumber).email = email from rfl, hes]
    · apply mem_familyIds_of_famReach
      have hroot : res.response.primaryContactId
          = (freshContact db.nextId now email phoneNumber).id := by
        rw [hres]
        rfl
      rw [hroot]
      show FamReach res.db.contacts (freshContact db.nextId now email phoneNumber).id
        (freshContact db.nextId now email phoneNumber).id
      apply FamReach.base (freshContact db.nextId now email phoneNumber)
      · rw [hres]
        exact List.mem_append_right _ (List.mem_singleton_self _)
      · rfl
      · rfl
  | cons c0 rest =>
    have hne : theExisting db email phoneNumber ≠ [] := by rw [hex]; simp
    have hrid : res.response.primaryContactId = finalPrimaryId db email phoneNumber := by
      rw [identify_matched_eq db now email phoneNumber res h hne]
      rfl
    have hroot : res.response.primaryContactId = (actingPrimary db email phoneNumber).id := by
      rw [hrid, acting_id_eq_finalPrimaryId]
    rcases post_primary db now email phoneNumber res hwf h with ⟨⟨cstar, hcsm, hcsmatch,
      _, hcsid⟩, _⟩
    have hbase : FamReach res.db.contacts res.response.primaryContactId
        res.response.primaryContactId :=
      FamReach.base cstar hcsm hcsid
        (matches_deletedAt_none email phoneNumber cstar hcsmatch)
    by_cases hfrag : fragNew email (familyEmails db email phoneNumber) = true
    · -- the fragment is new: the inserted secondary carries it
      have hneed : needNewContact db email phoneNumber = true := by
        rw [needNewContact, hfrag]
        rfl
      have hsecmem := newSecondary_mem_post db now email phoneNumber res hwf h hne hneed
      refine ⟨newSecondary db db.nextId now email phoneNumber, hsecmem, rfl, ?_, ?_⟩
      · show (if fragNew email (familyEmails db email phoneNumber) then email else none)
          = some s
        rw [if_pos hfrag, hes]
      · apply mem_familyIds_of_famReach
        have : FamReach res.db.contacts res.response.primaryContactId
            (newSecondary db db.nextId now email phoneNumber).id := by
          apply FamReach.toChild res.response.primaryContactId _ hbase hsecmem rfl
          show some (actingPrimary db email phoneNumber).id = _
          rw [← hroot]
        exact this
    · -- the fragment was already in the acting family: transport its carrier
      have hfrag' : fragNew (some s) (familyEmails db email phoneNumber) = false := by
        rw [Bool.not_eq_true] at hfrag
        rw [← hes]
        exact hfrag
      have hmem : s ∈ familyEmails db email phoneNumber := by
        rw [fragNew] at hfrag'
        cases hb : (familyEmails db email phoneNumber).contains s with
        | true => exact (contains_iff_mem _ _).1 hb
        | false =>
          exfalso
          rw [hb] at hfrag'
          have hsb : (s == "") = false := beq_eq_false_iff_ne.mpr hs
          rw [hsb] at hfrag'
          simp at hfrag'
      rcases (mem_familyEmails_iff db email phoneNumber s).1 hmem with ⟨⟨c, hcf, hcs⟩, _⟩
      rcases (mem_theFamily_iff db email phoneNumber c).1 hcf with ⟨hcdb, hcid, hcdel⟩
      rcases post_row_correspondence db now email phoneNumber res hwf h c hcdb with
        ⟨c', hc'm, hc'id, hc'del, hc'em, _, _⟩
      refine ⟨c', hc'm, by rw [hc'del, hcdel], by rw [hc'em, hcs], ?_⟩
      rw [hc'id]
      apply mem_familyIds_of_famReach
      rw [hroot]
      apply famReach_mono db.contacts res.db.contacts
        (actingPrimary db email phoneNumber).id
        (fun d hd => by
          rcases post_row_correspondence db now email phoneNumber res hwf h d hd with
            ⟨d', hd'm, hd'id, hd'del, _, _, hd'link⟩
          exact ⟨d', hd'm, hd'id, hd'del, hd'link⟩)
      exact famReach_of_mem_familyIds db _ c.id hcid

/-- After a successful request, a truthy supplied phone is carried by some
non-deleted row of the surviving primary's family (in the post-state). -/
theorem post_phone_present (db : DB) (now : Nat) (email phoneNumber : Option String)
    (res : IdentifyResult) (hwf : WF db) (h : identify db now email phoneNumber = some res) :
    ∀ s, phoneNumber = some s → ¬ (s = "") →
    ∃ c', c' ∈ res.db.contacts ∧ c'.deletedAt = none ∧ c'.phoneNumber = some s
      ∧ c'.id ∈ familyIds res.db res.response.primaryContactId := by
  intro s hps hs
  cases hex : theExisting db email phoneNumber with
  | nil =>
    have hres := identify_fresh_eq db now email phoneNumber res h hex
    refine ⟨freshContact db.nextId now email phoneNumber, ?_, rfl, ?_, ?_⟩
    · rw [hres]
      exact List.mem_append_right _ (List.mem_singleton_self _)
    · rw [show (freshContact db.nextId now email phoneNumber).phoneNumber
        = phoneNumber from rfl, hps]
    · apply mem_familyIds_of_famReach
      have hroot : res.response.primaryContactId
          = (freshContact db.nextId now email phoneNumber).id := by
        rw [hres]
        rfl
      rw [hroot]
      apply FamReach.base (freshContact db.nextId now email phoneNumber)
      · rw [hres]
        exact List.mem_append_right _ (List.mem_singleton_self _)
      · rfl
      · rfl
  | cons c0 rest =>
    have hne : theExisting db email phoneNumber ≠ [] := by rw [hex]; simp
    have hrid : res.response.primaryContactId = finalPrimaryId db email phoneNumber := by
      rw [identify_matched_eq db now email phoneNumber res h hne]
      rfl
    have hroot : res.response.primaryContactId = (actingPrimary db email phoneNumber).id := by
      rw [hrid, acting_id_eq_finalPrimaryId]
    rcases post_primary db now email phoneNumber res hwf h with ⟨⟨cstar, hcsm, hcsmatch,
      _, hcsid⟩, _⟩
    have hbase : FamReach res.db.contacts res.response.primaryContactId
        res.response.primaryContactId :=
      FamReach.base cstar hcsm hcsid
        (matches_deletedAt_none email phoneNumber cstar hcsmatch)
    by_cases hfrag : fragNew phoneNumber (familyPhones db email phoneNumber) = true
    · have hneed : needNewContact db email phoneNumber = true := by
        rw [needNewContact, hfrag]
        rw [Bool.or_true]
      have hsecmem := newSecondary_mem_post db now email phoneNumber res hwf h hne hneed
      refine ⟨newSecondary db db.nextId now email phoneNumber, hsecmem, rfl, ?_, ?_⟩
      · show (if fragNew phoneNumber (familyPhones db email phoneNumber) then phoneNumber
          else none) = some s
        rw [if_pos hfrag, hps]
      · apply mem_familyIds_of_famReach
        apply FamReach.toChild res.response.primaryContactId _ hbase hsecmem rfl
        show some (actingPrimary db email phoneNumber).id = _
        rw [← hroot]
    · have hfrag' : fragNew (some s) (familyPhones db email phoneNumber) = false := by
        rw [Bool.not_eq_true] at hfrag
        rw [← hps]
        exact hfrag
      have hmem : s ∈ familyPhones db email phoneNumber := by
        rw [fragNew] at hfrag'
        cases hb : (familyPhones db email phoneNumber).contains s with
        | true => exact (contains_iff_mem _ _).1 hb
        | false =>
          exfalso
          rw [hb] at hfrag'
          have hsb : (s == "") = false := beq_eq_false_iff_ne.mpr hs
          rw [hsb] at hfrag'
          simp at hfrag'
      rcases (mem_familyPhones_iff db email phoneNumber s).1 hmem with ⟨⟨c, hcf, hcs⟩, _⟩
      rcases (mem_theFamily_iff db email phoneNumber c).1 hcf with ⟨hcdb, hcid, hcdel⟩
      rcases post_row_correspondence db now email phoneNumber res hwf h c hcdb with
        ⟨c', hc'm, hc'id, hc'del, _, hc'ph, _⟩
      refine ⟨c', hc'm, by rw [hc'del, hcdel], by rw [hc'ph, hcs], ?_⟩
      rw [hc'id]
      apply mem_familyIds_of_famReach
      rw [hroot]
      apply famReach_mono db.contacts res.db.contacts
        (actingPrimary db email phoneNumber).id
        (fun d hd => by
          rcases post_row_correspondence db now email phoneNumber res hwf h d hd with
            ⟨d', hd'm, hd'id, hd'del, _, _, hd'link⟩
          exact ⟨d', hd'm, hd'id, hd'del, hd'link⟩)
      exact famReach_of_mem_familyIds db _ c.id hcid

/-- C6.  Reconcile is idempotent on repeated identical input over a
well-formed store: a second call with the same `(email, phoneNumber)` returns
the same `primaryContactId` as the first and creates no additional contact —
in fact it performs no write at all, leaving the store exactly as the first
call left it. -/
theorem c6_idempotent (db : DB) (now1 now2 : Nat) (email phoneNumber : Option String)
    (r1 r2 : IdentifyResult) (hwf : WF db)
    (h1 : identify db now1 email phoneNumber = some r1)
    (h2 : identify r1.db now2 email phoneNumber = some r2) :
    r2.response.primaryContactId = r1.response.primaryContactId ∧ r2.db = r1.db := by
  obtain ⟨⟨cstar, hcsm, hcsmatch, hcsprim, hcsid⟩, huniq⟩ :=
    post_primary db now1 email phoneNumber r1 hwf h1
  have hnodup := post_wf_ids db now1 email phoneNumber r1 hwf h1
  have hcsex : cstar ∈ theExisting r1.db email phoneNumber :=
    mem_theExisting_of_matches r1.db email phoneNumber cstar hcsm hcsmatch
  have hne2 : theExisting r1.db email phoneNumber ≠ [] := List.ne_nil_of_mem hcsex
  have huniq2 : ∀ y ∈ theExisting r1.db email phoneNumber,
      Contact.isPrimary y = true → y = cstar := by
    intro y hy hyp
    have hydb : y ∈ r1.db.contacts := mem_of_mem_theExisting r1.db email phoneNumber y hy
    have hym : matchesRequest email phoneNumber y = true :=
      matches_of_mem_theExisting r1.db email phoneNumber y hy
    have hid : y.id = r1.response.primaryContactId := huniq y hydb hym hyp
    exact rows_eq_of_id r1.db.contacts hnodup y cstar hydb hcsm (by rw [hid, hcsid])
  have hfp2 : foundPrimary r1.db email phoneNumber = some cstar := by
    rw [foundPrimary]
    exact find?_eq_some_unique Contact.isPrimary _ cstar hcsex hcsprim huniq2
  have hacting2 : actingPrimary r1.db email phoneNumber = cstar :=
    actingPrimary_of_found r1.db email phoneNumber cstar hfp2
  have hmpnodup : ((theExisting r1.db email phoneNumber).map (·.id)).Nodup := by
    have hperm : ((theExisting r1.db email phoneNumber).map (·.id)).Perm
        ((r1.db.contacts.filter (matchesRequest email phoneNumber)).map (·.id)) := by
      rw [theExisting, findRelatedContacts]
      exact (sortRows_perm createdLT _).map _
    apply hperm.nodup_iff.2
    exact List.Nodup.sublist ((List.filter_sublist _).map _) hnodup
  have hmp2 : multiplePrimaries r1.db email phoneNumber = [cstar] := by
    rw [multiplePrimaries, memContacts_eq_of_found r1.db email phoneNumber cstar hfp2]
    exact filter_eq_singleton_unique Contact.isPrimary (·.id) _ cstar hmpnodup hcsex
      hcsprim huniq2
  have hnogt2 : ¬ (multiplePrimaries r1.db email phoneNumber).length > 1 := by
    rw [hmp2]
    simp
  have hfe : fragNew email (familyEmails r1.db email phoneNumber) = false := by
    cases hemail : email with
    | none => rfl
    | some s =>
      by_cases hse : s = ""
      · rw [fragNew, hse]
        rfl
      · rcases post_email_present db now1 email phoneNumber r1 hwf h1 s hemail hse with
          ⟨c', hc'm, hc'del, hc'em, hc'fam⟩
        have hcfam2 : c' ∈ theFamily r1.db email phoneNumber :=
          (mem_theFamily_iff r1.db email phoneNumber c').2
            ⟨hc'm, by rw [hacting2, hcsid]; exact hc'fam, hc'del⟩
        have hsmem : s ∈ familyEmails r1.db email phoneNumber :=
          (mem_familyEmails_iff r1.db email phoneNumber s).2 ⟨⟨c', hcfam2, hc'em⟩, hse⟩
        have hthis : fragNew (some s) (familyEmails r1.db email phoneNumber) = false := by
          rw [fragNew, (contains_iff_mem _ _).2 hsmem]
          simp
        rw [hemail] at hthis
        exact hthis
  have hfp' : fragNew phoneNumber (familyPhones r1.db email phoneNumber) = false := by
    cases hphone : phoneNumber with
    | none => rfl
    | some s =>
      by_cases hse : s = ""
      · rw [fragNew, hse]
        rfl
      · rcases post_phone_present db now1 email phoneNumber r1 hwf h1 s hphone hse with
          ⟨c', hc'm, hc'del, hc'ph, hc'fam⟩
        have hcfam2 : c' ∈ theFamily r1.db email phoneNumber :=
          (mem_theFamily_iff r1.db email phoneNumber c').2
            ⟨hc'm, by rw [hacting2, hcsid]; exact hc'fam, hc'del⟩
        have hsmem : s ∈ familyPhones r1.db email phoneNumber :=
          (mem_familyPhones_iff r1.db email phoneNumber s).2 ⟨⟨c', hcfam2, hc'ph⟩, hse⟩
        have hthis : fragNew (some s) (familyPhones r1.db email phoneNumber) = false := by
          rw [fragNew, (contains_iff_mem _ _).2 hsmem]
          simp
        rw [hphone] at hthis
        exact hthis
  have hneed2 : needNewContact r1.db email phoneNumber = false := by
    rw [needNewContact, hfe, hfp']
    rfl
  have hres2 := identify_matched_eq r1.db now2 email phoneNumber r2 h2 hne2
  have hcond : ¬ (needNewContact r1.db email phoneNumber = true) := by
    rw [hneed2]
    exact Bool.false_ne_true
  have hc : applyDemoteWrites r1.db email phoneNumber now2
      (if needNewContact r1.db email phoneNumber then
        applyPromoteWrite r1.db email phoneNumber now2 r1.db.contacts
          ++ [newSecondary r1.db r1.db.nextId now2 email phoneNumber]
       else applyPromoteWrite r1.db email phoneNumber now2 r1.db.contacts)
      = r1.db.contacts := by
    rw [if_neg hcond,
      applyPromote_of_found r1.db email phoneNumber now2 r1.db.contacts cstar hfp2,
      applyDemoteWrites, if_neg hnogt2]
  constructor
  · rw [hres2]
    show (assembleResponse r1.db r1.db.nextId now2 email phoneNumber).primaryContactId = _
    rw [assembleResponse_primaryContactId, finalPrimaryId, if_neg hnogt2, hacting2, hcsid]
  · rw [hres2]
    show DB.mk _ _ = r1.db
    rw [hc, if_neg hcond]

/-- Witness for C6: calling the merge request `(a@x, 111)` on `mergeDB` and
then repeating it returns the same `primaryContactId` and leaves the store
untouched. -/
theorem c6_idempotent_witness :
    ((identify (((identify mergeDB 9 (some "a@x") (some "111")).getD default).db) 10
        (some "a@x") (some "111")).getD default).response.primaryContactId
      = ((identify mergeDB 9 (some "a@x") (some "111")).getD default).response.primaryContactId
    ∧ ((identify (((identify mergeDB 9 (some "a@x") (some "111")).getD default).db) 10
        (some "a@x") (some "111")).getD default).db
      = ((identify mergeDB 9 (some "a@x") (some "111")).getD default).db :=
  c6_idempotent mergeDB 9 10 (some "a@x") (some "111")
    ((identify mergeDB 9 (some "a@x") (some "111")).getD default)
    ((identify (((identify mergeDB 9 (some "a@x") (some "111")).getD default).db) 10
        (some "a@x") (some "111")).getD default)
    (by refine ⟨by decide, ?_, ?_, ?_⟩ <;> decide)
    (by decide) (by decide)

end IdentityRecon
